import Mathlib

/-!
Verification of tools/validate_profile_json.py against its specification.

The file embeds the validator as Lean functions over a JSON value type and
proves or refutes the specified properties. Line numbers in doc comments
refer to src/tools/validate_profile_json.py.
-/

/-- JSON-like values as produced by Python json.loads: null, booleans, numbers,
strings, arrays, and objects (dicts with string keys). Numbers are modelled as
integers; no check in the validator inspects a numeric value, only the
constructor matters. Python None (the parse of json null) is the value null. -/
inductive J where
  | null
  | bool (b : Bool)
  | num (n : Int)
  | str (s : String)
  | arr (xs : List J)
  | obj (fs : List (String × J))

/-- Association-list lookup on an object's fields, first match wins
(json.loads produces dicts with distinct keys). -/
def J.lookup : List (String × J) → String → Option J
  | [], _ => none
  | (k, v) :: rest, key => if k == key then some v else J.lookup rest key

/-- Python dict.get with default None: an absent key yields null, which is
also how a stored json null reads back (both are Python None). -/
def pyGet (fs : List (String × J)) (key : String) : J :=
  match J.lookup fs key with
  | none => J.null
  | some v => v

/-- Python key-membership test (key in dict). Unlike pyGet this distinguishes
an absent key from a key stored with value null. -/
def hasKey (fs : List (String × J)) (key : String) : Bool :=
  (J.lookup fs key).isSome

/-- Python isinstance(v, dict). -/
def J.isObj : J → Bool
  | .obj _ => true
  | _ => false

/-- Python isinstance(v, list). -/
def J.isArr : J → Bool
  | .arr _ => true
  | _ => false

/-- Python isinstance(v, str). -/
def J.isStr : J → Bool
  | .str _ => true
  | _ => false

/-- Python isinstance(v, list) and all(isinstance(x, str) for x in v). -/
def J.isStrArray : J → Bool
  | .arr xs => xs.all J.isStr
  | _ => false

/-- Python Unicode whitespace: the exact 29 code points stripped by
str.strip() with no argument (CPython Py_UNICODE_ISSPACE): U+0009-U+000D,
U+001C-U+001F, U+0020, U+0085, U+00A0, U+1680, U+2000-U+200A, U+2028,
U+2029, U+202F, U+205F, U+3000. -/
def pyIsSpace (c : Char) : Bool :=
  (9 ≤ c.toNat && c.toNat ≤ 13) || (28 ≤ c.toNat && c.toNat ≤ 31) || c.toNat == 32
    || c.toNat == 133 || c.toNat == 160 || c.toNat == 5760
    || (8192 ≤ c.toNat && c.toNat ≤ 8202) || c.toNat == 8232 || c.toNat == 8233
    || c.toNat == 8239 || c.toNat == 8287 || c.toNat == 12288

/-- Truthiness of not pid.strip() (line 56): the string consists only of
Python whitespace characters (this includes the empty string). -/
def isBlank (s : String) : Bool :=
  s.data.all pyIsSpace

/-- Helper from the source (def at line 18): isinstance(value, dict) and
(en in value or it in value). Note it is false on every plain string; the
call sites accept strings through a separate isinstance disjunct. -/
def isLocalized (v : J) : Bool :=
  match v with
  | .obj fs => hasKey fs "en" || hasKey fs "it"
  | _ => false

/-- Bool test that pat is an initial segment of s. -/
def startsWithChars : List Char → List Char → Bool
  | [], _ => true
  | _ :: _, [] => false
  | a :: as, b :: bs => a == b && startsWithChars as bs

/-- Bool test that pat occurs contiguously inside s (Python: pat in s). -/
def hasSubChars (pat : List Char) : List Char → Bool
  | [] => startsWithChars pat []
  | b :: bs => startsWithChars pat (b :: bs) || hasSubChars pat bs

/-- Case-insensitive substring test of line 151: "domomea" in s.lower().
Char.toLower models str.lower per character; the pattern is ASCII. -/
def containsDomomea (s : String) : Bool :=
  hasSubChars "domomea".data (s.data.map Char.toLower)

/-- Message of line 57. -/
def nonEmptyIdMsg (idx : Nat) : String :=
  "projects[" ++ Nat.repr idx ++ "].id must be a non-empty string"

/-- Message of line 59. -/
def dupIdMsg (pid : String) : String :=
  "Duplicate projects[].id: " ++ pid

/-- Message of line 53. -/
def projObjMsg (idx : Nat) : String :=
  "projects[" ++ Nat.repr idx ++ "] must be an object"

/-- Message of line 66. -/
def containedArrMsg (idx : Nat) : String :=
  "projects[" ++ Nat.repr idx ++ "].contained must be an array"

/-- Message of line 70. -/
def containedObjMsg (idx cidx : Nat) : String :=
  "projects[" ++ Nat.repr idx ++ "].contained[" ++ Nat.repr cidx ++ "] must be an object"

/-- Message of line 73. -/
def containedNameMsg (idx cidx : Nat) : String :=
  "projects[" ++ Nat.repr idx ++ "].contained[" ++ Nat.repr cidx
    ++ "].name must be string or localized object"

/-- Message of line 75. -/
def containedTaglineMsg (idx cidx : Nat) : String :=
  "projects[" ++ Nat.repr idx ++ "].contained[" ++ Nat.repr cidx
    ++ "].tagline must be string or localized object"

/-- Message of line 80. -/
def specObjMsg (idx : Nat) : String :=
  "projects[" ++ Nat.repr idx ++ "].spec must be an object"

/-- Message of line 84. -/
def specStatusMsg (idx : Nat) : String :=
  "projects[" ++ Nat.repr idx ++ "].spec.status must be a string"

/-- Message of line 87. -/
def specLocMsg (idx : Nat) (key : String) : String :=
  "projects[" ++ Nat.repr idx ++ "].spec." ++ key ++ " must be string or localized object"

/-- Message of line 90. -/
def specListMsg (idx : Nat) (key : String) : String :=
  "projects[" ++ Nat.repr idx ++ "].spec." ++ key ++ " must be an array"

/-- Message of line 133. -/
def phdMissingMsg (key : String) : String :=
  "phd_extract missing required key: " ++ key

/-- Message of line 135. -/
def phdArrayMsg (key : String) : String :=
  "phd_extract." ++ key ++ " must be an array of strings"

/-- Message of line 160. -/
def domomeaBulletsTypeMsg (k : Nat) : String :=
  "DoMoMEA proof item #" ++ Nat.repr k ++ " bullets must be an array of strings"

/-- Message of line 163. -/
def domomeaBulletsRangeMsg (k : Nat) : String :=
  "DoMoMEA proof item #" ++ Nat.repr k ++ " bullets must have 6–10 items"

/-- Message of line 165. -/
def domomeaSourceMsg (k : Nat) : String :=
  "DoMoMEA proof item #" ++ Nat.repr k ++ " source must be a string or localized object"

/-- Lines 32-34: required top-level keys person, i18n, projects
(the loop over the three keys is unrolled). -/
def topKeyErrors (fs : List (String × J)) : List String :=
  (if hasKey fs "person" then [] else ["Missing required top-level key: person"])
    ++ (if hasKey fs "i18n" then [] else ["Missing required top-level key: i18n"])
    ++ (if hasKey fs "projects" then [] else ["Missing required top-level key: projects"])

/-- Lines 40-44 for one language: lang not in i18n reports the missing-language
message, otherwise the stored value (which may be json null) must be a dict. -/
def i18nLangErrors (ifs : List (String × J)) (lang : String) : List String :=
  match J.lookup ifs lang with
  | none => ["i18n missing language: " ++ lang]
  | some v => if v.isObj then [] else ["i18n." ++ lang ++ " must be an object"]

/-- Lines 36-44. -/
def i18nErrors (fs : List (String × J)) : List String :=
  match pyGet fs "i18n" with
  | .null => []
  | .obj ifs => i18nLangErrors ifs "en" ++ i18nLangErrors ifs "it"
  | _ => ["i18n must be an object"]

/-- Lines 55-61: the id must be a string that is not blank; a repeated id is
reported as a duplicate; a fresh valid id is accepted (the set update is
seenUpd below). -/
def idErrors (idx : Nat) (seen : List String) (pfs : List (String × J)) : List String :=
  match pyGet pfs "id" with
  | .str pid =>
      if isBlank pid then [nonEmptyIdMsg idx]
      else if seen.contains pid then [dupIdMsg pid]
      else []
  | _ => [nonEmptyIdMsg idx]

/-- Update of seen_ids (line 61) performed by the loop body for one entry:
only a valid (string, non-blank) id that was not already seen is added. -/
def seenUpd (seen : List String) (p : J) : List String :=
  match p with
  | .obj pfs =>
      match pyGet pfs "id" with
      | .str pid =>
          if isBlank pid then seen
          else if seen.contains pid then seen
          else pid :: seen
      | _ => seen
  | _ => seen

/-- Lines 68-75 for one contained item. -/
def containedItemErrors (idx cidx : Nat) (item : J) : List String :=
  match item with
  | .obj ifs =>
      (if (pyGet ifs "name").isStr || (pyGet ifs "name").isObj then []
       else [containedNameMsg idx cidx])
        ++ (match J.lookup ifs "tagline" with
            | none => []
            | some v => if v.isStr || v.isObj then [] else [containedTaglineMsg idx cidx])
  | _ => [containedObjMsg idx cidx]

/-- Enumerated loop of line 68. -/
def containedLoop (idx : Nat) (cidx : Nat) : List J → List String
  | [] => []
  | item :: rest => containedItemErrors idx cidx item ++ containedLoop idx (cidx + 1) rest

/-- Lines 63-75. -/
def containedErrors (idx : Nat) (pfs : List (String × J)) : List String :=
  match pyGet pfs "contained" with
  | .null => []
  | .arr items => containedLoop idx 0 items
  | _ => [containedArrMsg idx]

/-- Lines 85-87 for one localized key (boundary or purpose). -/
def specKeyLocErrors (idx : Nat) (sfs : List (String × J)) (key : String) : List String :=
  match J.lookup sfs key with
  | none => []
  | some v => if isLocalized v || v.isStr then [] else [specLocMsg idx key]

/-- Lines 88-90 for one list key. -/
def specKeyListErrors (idx : Nat) (sfs : List (String × J)) (key : String) : List String :=
  match J.lookup sfs key with
  | none => []
  | some v => if v.isArr then [] else [specListMsg idx key]

/-- Lines 77-90 (the two inner loops are unrolled over their concrete keys). -/
def specErrors (idx : Nat) (pfs : List (String × J)) : List String :=
  match pyGet pfs "spec" with
  | .null => []
  | .obj sfs =>
      (match J.lookup sfs "status" with
        | none => []
        | some v => if v.isStr then [] else [specStatusMsg idx])
        ++ specKeyLocErrors idx sfs "boundary" ++ specKeyLocErrors idx sfs "purpose"
        ++ specKeyListErrors idx sfs "inputs" ++ specKeyListErrors idx sfs "outputs"
        ++ specKeyListErrors idx sfs "reuse" ++ specKeyListErrors idx sfs "constraints"
        ++ specKeyListErrors idx sfs "current_focus"
  | _ => [specObjMsg idx]

/-- Lines 51-90: loop body for one projects entry (a non-dict entry is reported
and the body continues with the next entry). -/
def stepErrors (idx : Nat) (seen : List String) (p : J) : List String :=
  match p with
  | .obj pfs => idErrors idx seen pfs ++ containedErrors idx pfs ++ specErrors idx pfs
  | _ => [projObjMsg idx]

/-- Enumerated loop of line 51, threading the seen-id set. -/
def projLoop (idx : Nat) (seen : List String) : List J → List String
  | [] => []
  | p :: rest => stepErrors idx seen p ++ projLoop (idx + 1) (seenUpd seen p) rest

/-- Lines 46-90. -/
def projectsErrors (fs : List (String × J)) : List String :=
  match pyGet fs "projects" with
  | .null => []
  | .arr ps => projLoop 0 [] ps
  | _ => ["projects must be an array"]

/-- Lines 92-101. -/
def contextsErrors (fs : List (String × J)) : List String :=
  match pyGet fs "contexts" with
  | .null => []
  | .obj cfs =>
      (match J.lookup cfs "disclaimer" with
        | none => []
        | some v =>
            if isLocalized v || v.isStr then []
            else ["contexts.disclaimer must be string or localized object"])
        ++ (match J.lookup cfs "direct_work" with
            | none => []
            | some v => if v.isArr then [] else ["contexts.direct_work must be an array"])
        ++ (match J.lookup cfs "operational_exposure" with
            | none => []
            | some v => if v.isArr then [] else ["contexts.operational_exposure must be an array"])
  | _ => ["contexts must be an object"]

/-- Lines 103-110. -/
def readingErrors (fs : List (String × J)) : List String :=
  match pyGet fs "reading" with
  | .null => []
  | .obj rfs =>
      match pyGet rfs "domains" with
      | .null => []
      | .arr _ => []
      | _ => ["reading.domains must be an array"]
  | _ => ["reading must be an object"]

/-- The tuple of lines 118-126. -/
def phdRequiredArrays : List String :=
  ["research_objective", "architecture_stack", "innovation", "validation_plan",
   "engineering_challenges", "dissemination", "training_teaching"]

/-- Lines 130-135 for one required key: a value read back as None (absent key
or stored json null) is reported as missing, anything else must be an array
of strings. -/
def phdKeyErrors (pfs : List (String × J)) (key : String) : List String :=
  match pyGet pfs key with
  | .null => [phdMissingMsg key]
  | v => if v.isStrArray then [] else [phdArrayMsg key]

/-- Lines 112-135. -/
def phdErrors (fs : List (String × J)) : List String :=
  match pyGet fs "phd_extract" with
  | .null => ["Missing required top-level key: phd_extract"]
  | .obj pfs =>
      (match pyGet pfs "source" with
        | .obj _ => []
        | _ => ["phd_extract.source must be an object"])
        ++ (phdRequiredArrays.map (phdKeyErrors pfs)).flatten
  | _ => ["phd_extract must be an object"]

/-- Lines 149-150: the English variant of an item label, the label itself
when it is not a dict. -/
def labelEn (ifs : List (String × J)) : J :=
  match pyGet ifs "label" with
  | .obj lfs => pyGet lfs "en"
  | v => v

/-- Line 151: the label_en is a string containing domomea case-insensitively. -/
def isDomomeaItem (ifs : List (String × J)) : Bool :=
  match labelEn ifs with
  | .str s => containsDomomea s
  | _ => false

/-- Lines 140-152 for one group: non-dict groups and non-list items fields are
skipped; matching dict items are collected in order. -/
def groupDomomea (group : J) : List (List (String × J)) :=
  match group with
  | .obj gfs =>
      match pyGet gfs "items" with
      | .arr items =>
          items.filterMap (fun item =>
            match item with
            | .obj ifs => if isDomomeaItem ifs then some ifs else none
            | _ => none)
      | _ => []
  | _ => []

/-- The domomea_items list built by lines 139-152. -/
def collectDomomea (cats : List J) : List (List (String × J)) :=
  (cats.map groupDomomea).flatten

/-- Lines 157-165 for one matched item, k is the 1-based index idx + 1. -/
def domomeaItemErrors (k : Nat) (ifs : List (String × J)) : List String :=
  (match pyGet ifs "bullets" with
    | .arr bs =>
        if bs.all J.isStr then
          (if 6 ≤ bs.length ∧ bs.length ≤ 10 then [] else [domomeaBulletsRangeMsg k])
        else [domomeaBulletsTypeMsg k]
    | _ => [domomeaBulletsTypeMsg k])
    ++ (if (pyGet ifs "source").isStr || (pyGet ifs "source").isObj then []
        else [domomeaSourceMsg k])

/-- Enumerated loop of line 157 (starting at 1-based index 1). -/
def domomeaLoop (k : Nat) : List (List (String × J)) → List String
  | [] => []
  | ifs :: rest => domomeaItemErrors k ifs ++ domomeaLoop (k + 1) rest

/-- Lines 137-165: the whole section is guarded by proof being a dict whose
categories field is a list; otherwise nothing is checked. -/
def proofErrors (fs : List (String × J)) : List String :=
  match pyGet fs "proof" with
  | .obj pofs =>
      match pyGet pofs "categories" with
      | .arr cats =>
          if (collectDomomea cats).isEmpty then
            ["proof.categories must include a DoMoMEA evidence item"]
          else domomeaLoop 1 (collectDomomea cats)
      | _ => []
  | _ => []

/-- Line 168: isinstance(p, dict) and p.get("id") == "bmi". -/
def isBmiProj (p : J) : Bool :=
  match p with
  | .obj pfs =>
      match pyGet pfs "id" with
      | .str pid => pid == "bmi"
      | _ => false
  | _ => false

/-- Lines 172-177 on the found bmi project. -/
def evidenceErrors (bfs : List (String × J)) : List String :=
  match pyGet bfs "evidence_bullets" with
  | .null => []
  | .arr es =>
      if es.all J.isStr then
        (if 4 ≤ es.length ∧ es.length ≤ 8 then []
         else ["projects[id=bmi].evidence_bullets must have 4–8 items"])
      else ["projects[id=bmi].evidence_bullets must be an array of strings"]
  | _ => ["projects[id=bmi].evidence_bullets must be an array of strings"]

/-- Lines 167-177: the check runs only when projects is a list. The found
element always satisfies isBmiProj, hence is a dict; the last arm is
unreachable. -/
def bmiErrors (fs : List (String × J)) : List String :=
  match pyGet fs "projects" with
  | .arr ps =>
      match ps.find? isBmiProj with
      | none => ["projects must include id=bmi"]
      | some (.obj bfs) => evidenceErrors bfs
      | some _ => []
  | _ => []

/-- Lines 26-179: the validator, a pure function from the parsed document to
the ordered list of violation messages. -/
def validate (profile : J) : List String :=
  match profile with
  | .obj fs =>
      topKeyErrors fs ++ i18nErrors fs ++ projectsErrors fs ++ contextsErrors fs
        ++ readingErrors fs ++ phdErrors fs ++ proofErrors fs ++ bmiErrors fs
  | _ => ["Root JSON value must be an object"]

/-- Mirror of i18nLangErrors in which the Python subscript of line 43 is a
fallible lookup; none models a KeyError escaping the function. The in-test
of line 41 guards the subscript. -/
def i18nLangErrorsOpt (ifs : List (String × J)) (lang : String) : Option (List String) :=
  if hasKey ifs lang then
    (J.lookup ifs lang).map
      (fun v => if v.isObj then [] else ["i18n." ++ lang ++ " must be an object"])
  else some ["i18n missing language: " ++ lang]

/-- Mirror of i18nErrors with fallible subscripts. -/
def i18nErrorsOpt (fs : List (String × J)) : Option (List String) :=
  match pyGet fs "i18n" with
  | .null => some []
  | .obj ifs => do
      let a ← i18nLangErrorsOpt ifs "en"
      let b ← i18nLangErrorsOpt ifs "it"
      some (a ++ b)
  | _ => some ["i18n must be an object"]

/-- Mirror of specKeyLocErrors: the subscript of line 86 is guarded by the
in-test. -/
def specKeyLocErrorsOpt (idx : Nat) (sfs : List (String × J)) (key : String) :
    Option (List String) :=
  if hasKey sfs key then
    (J.lookup sfs key).map
      (fun v => if isLocalized v || v.isStr then [] else [specLocMsg idx key])
  else some []

/-- Mirror of specKeyListErrors: the subscript of line 89 is guarded by the
in-test. -/
def specKeyListErrorsOpt (idx : Nat) (sfs : List (String × J)) (key : String) :
    Option (List String) :=
  if hasKey sfs key then
    (J.lookup sfs key).map (fun v => if v.isArr then [] else [specListMsg idx key])
  else some []

/-- Mirror of specErrors with fallible subscripts (lines 83-90). -/
def specErrorsOpt (idx : Nat) (pfs : List (String × J)) : Option (List String) :=
  match pyGet pfs "spec" with
  | .null => some []
  | .obj sfs => do
      let st ←
        if hasKey sfs "status" then
          (J.lookup sfs "status").map (fun v => if v.isStr then [] else [specStatusMsg idx])
        else some []
      let b ← specKeyLocErrorsOpt idx sfs "boundary"
      let p ← specKeyLocErrorsOpt idx sfs "purpose"
      let l1 ← specKeyListErrorsOpt idx sfs "inputs"
      let l2 ← specKeyListErrorsOpt idx sfs "outputs"
      let l3 ← specKeyListErrorsOpt idx sfs "reuse"
      let l4 ← specKeyListErrorsOpt idx sfs "constraints"
      let l5 ← specKeyListErrorsOpt idx sfs "current_focus"
      some (st ++ b ++ p ++ l1 ++ l2 ++ l3 ++ l4 ++ l5)
  | _ => some [specObjMsg idx]

/-- Mirror of stepErrors: the id and contained checks use only total
operations (dict.get, isinstance), so they are shared with the pure version;
the spec check contains the guarded subscripts. -/
def stepErrorsOpt (idx : Nat) (seen : List String) (p : J) : Option (List String) :=
  match p with
  | .obj pfs => do
      let sp ← specErrorsOpt idx pfs
      some (idErrors idx seen pfs ++ containedErrors idx pfs ++ sp)
  | _ => some [projObjMsg idx]

/-- Mirror of projLoop with fallible subscripts. -/
def projLoopOpt (idx : Nat) (seen : List String) : List J → Option (List String)
  | [] => some []
  | p :: rest => do
      let e ← stepErrorsOpt idx seen p
      let r ← projLoopOpt (idx + 1) (seenUpd seen p) rest
      some (e ++ r)

/-- Mirror of projectsErrors with fallible subscripts. -/
def projectsErrorsOpt (fs : List (String × J)) : Option (List String) :=
  match pyGet fs "projects" with
  | .null => some []
  | .arr ps => projLoopOpt 0 [] ps
  | _ => some ["projects must be an array"]

/-- Mirror of contextsErrors: the subscripts of lines 97-101 are guarded by
in-tests. -/
def contextsErrorsOpt (fs : List (String × J)) : Option (List String) :=
  match pyGet fs "contexts" with
  | .null => some []
  | .obj cfs => do
      let d ←
        if hasKey cfs "disclaimer" then
          (J.lookup cfs "disclaimer").map
            (fun v =>
              if isLocalized v || v.isStr then []
              else ["contexts.disclaimer must be string or localized object"])
        else some []
      let w ←
        if hasKey cfs "direct_work" then
          (J.lookup cfs "direct_work").map
            (fun v => if v.isArr then [] else ["contexts.direct_work must be an array"])
        else some []
      let o ←
        if hasKey cfs "operational_exposure" then
          (J.lookup cfs "operational_exposure").map
            (fun v => if v.isArr then [] else ["contexts.operational_exposure must be an array"])
        else some []
      some (d ++ w ++ o)
  | _ => some ["contexts must be an object"]

/-- Mirror of proofErrors: the subscript of line 140 is guarded by the
isinstance test on proof.get("categories") at line 138. -/
def proofErrorsOpt (fs : List (String × J)) : Option (List String) :=
  match pyGet fs "proof" with
  | .obj pofs =>
      if (pyGet pofs "categories").isArr then
        (J.lookup pofs "categories").bind
          (fun c =>
            match c with
            | .arr cats =>
                some (if (collectDomomea cats).isEmpty then
                        ["proof.categories must include a DoMoMEA evidence item"]
                      else domomeaLoop 1 (collectDomomea cats))
            | _ => none)
      else some []
  | _ => some []

/-- Mirror of validate in which every Python dict subscript is a fallible
lookup; a result of none models an exception escaping validate. Sections
whose checks use only total operations (top-level keys, reading, phd_extract,
bmi) are shared with the pure version. -/
def validateOpt (profile : J) : Option (List String) :=
  match profile with
  | .obj fs => do
      let i ← i18nErrorsOpt fs
      let p ← projectsErrorsOpt fs
      let c ← contextsErrorsOpt fs
      let pr ← proofErrorsOpt fs
      some (topKeyErrors fs ++ i ++ p ++ c ++ readingErrors fs ++ phdErrors fs
        ++ pr ++ bmiErrors fs)
  | _ => some ["Root JSON value must be an object"]

/-- Outcomes of the command-line entry point main (lines 182-207). -/
inductive MainOutcome where
  | ioError
  | parseError
  | schemaErrors (msgs : List String)
  | ok

/-- The decoded file content starts with the byte-order-mark character U+FEFF;
this is what read_text(encoding="utf-8") produces on a BOM-prefixed file,
since only the utf-8-sig codec strips the BOM. -/
def hasBom (s : String) : Bool :=
  match s.data with
  | c :: _ => c == '\uFEFF'
  | [] => false

/-- Model of json.loads as called at line 193: CPython json.loads raises
JSONDecodeError (message: Unexpected UTF-8 BOM) whenever its string argument
starts with U+FEFF, before any parsing; decode abstracts the rest of the
JSON parser (none models any other JSONDecodeError). -/
def pyLoads (decode : String → Option J) (s : String) : Option J :=
  if hasBom s then none else decode s

/-- Model of main (lines 182-207) given the result of reading the file
(none models an OSError) and a parser for the BOM-free case. -/
def mainOutcome (decode : String → Option J) (raw : Option String) : MainOutcome :=
  match raw with
  | none => .ioError
  | some s =>
      match pyLoads decode s with
      | none => .parseError
      | some profile =>
          match validate profile with
          | [] => .ok
          | msgs => .schemaErrors msgs

/-- Exit codes of main: 2 for an I/O failure, 1 for a parse failure or schema
violations, 0 on success. -/
def exitCode : MainOutcome → Nat
  | .ioError => 2
  | .parseError => 1
  | .schemaErrors _ => 1
  | .ok => 0

/-- Modelled from the spec: is_localized_text(value) is true if value is a
string, or an object containing at least one of the two recognized language
keys (section 4.1 of the spec). Compare with isLocalized from the source. -/
def isLocalizedTextSpec (v : J) : Bool :=
  match v with
  | .str _ => true
  | .obj fs => hasKey fs "en" || hasKey fs "it"
  | _ => false

/-- A projects entry counted as an occurrence of the id s. -/
def hasId (s : String) (p : J) : Bool :=
  match p with
  | .obj pfs =>
      match pyGet pfs "id" with
      | .str pid => pid == s
      | _ => false
  | _ => false

/-- Shape of every message the proof section can emit: the fixed
missing-evidence message or a message starting with the DoMoMEA item prefix. -/
def proofMsgShape (m : String) : Prop :=
  m = "proof.categories must include a DoMoMEA evidence item" ∨
    ∃ t, m.data = "DoMoMEA proof item #".data ++ t

/-- Shape of the per-entry messages of the projects section other than the
duplicate-id message: the fixed prefix followed by a tail whose last
character is t, g or y (no message of another section ends this way while
starting with this prefix). -/
def projPrefixed (m : String) : Prop :=
  (∃ t, m.data = "projects[".data ++ t) ∧
    (m.data.getLast? = some 't' ∨ m.data.getLast? = some 'g' ∨ m.data.getLast? = some 'y')

example : validate (J.obj []) =
    ["Missing required top-level key: person", "Missing required top-level key: i18n",
     "Missing required top-level key: projects", "Missing required top-level key: phd_extract"] := by
  decide

example : validate (J.arr []) = ["Root JSON value must be an object"] := by decide

example : validateOpt (J.obj []) = some (validate (J.obj [])) := by decide

example :
    containsDomomea "Built DoMoMEA device" = true ∧ containsDomomea "other" = false := by decide

/-! Generic helper lemmas about strings, characters and decimal numerals. -/

theorem string_ext (a b : String) (h : a.data = b.data) : a = b := by
  cases a; cases b; exact congrArg String.mk h

theorem getLast?_append_right (l₁ l₂ : List Char) (h : l₂ ≠ []) :
    (l₁ ++ l₂).getLast? = l₂.getLast? := List.getLast?_append_of_ne_nil _ h

theorem revTakeTwo_append (l m : List Char) (h : 2 ≤ m.length) :
    (l ++ m).reverse.take 2 = m.reverse.take 2 := by
  rw [List.reverse_append]
  exact List.take_append_of_le_length (by simpa)

/-- Value of a decimal digit string read most-significant first. -/
def digitsVal (l : List Char) : Nat :=
  l.foldl (fun a c => 10 * a + (c.toNat - 48)) 0

theorem digitsVal_append_digit (l : List Char) (c : Char) :
    digitsVal (l ++ [c]) = 10 * digitsVal l + (c.toNat - 48) := by
  simp [digitsVal, List.foldl_append]

theorem digitVal_digitChar (m : Nat) (h : m < 10) : (Nat.digitChar m).toNat - 48 = m := by
  interval_cases m <;> rfl

theorem toDigitsCore_append (b fuel n : Nat) (ds : List Char) :
    Nat.toDigitsCore b fuel n ds = Nat.toDigitsCore b fuel n [] ++ ds := by
  induction fuel generalizing n ds with
  | zero => simp [Nat.toDigitsCore]
  | succ f ih =>
    simp only [Nat.toDigitsCore]
    by_cases h : n / b = 0
    · simp [h]
    · simp only [h, if_false]
      rw [ih (n / b) (Nat.digitChar (n % b) :: ds), ih (n / b) [Nat.digitChar (n % b)]]
      simp

theorem digitsVal_toDigitsCore (n : Nat) : ∀ fuel, n < fuel →
    digitsVal (Nat.toDigitsCore 10 fuel n []) = n := by
  induction n using Nat.strong_induction_on with
  | _ n ih =>
    intro fuel h
    match fuel with
    | f + 1 =>
      simp only [Nat.toDigitsCore]
      by_cases hz : n / 10 = 0
      · have h10 : n % 10 = n := by omega
        simp only [hz, if_true, h10]
        have := digitVal_digitChar n (by omega)
        simp [digitsVal, this]
      · simp only [hz, if_false]
        rw [toDigitsCore_append, digitsVal_append_digit]
        rw [ih (n / 10) (by omega) f (by omega)]
        rw [digitVal_digitChar (n % 10) (by omega)]
        omega

theorem natRepr_inj {m n : Nat} (h : Nat.repr m = Nat.repr n) : m = n := by
  have hd : Nat.toDigits 10 m = Nat.toDigits 10 n := congrArg String.data h
  have hm := digitsVal_toDigitsCore m (m + 1) (by omega)
  have hn := digitsVal_toDigitsCore n (n + 1) (by omega)
  simp only [Nat.toDigits] at hd
  rw [hd, hn] at hm
  exact hm.symm

/-! Decomposition of validate into its sections. -/

theorem mem_validate_iff (fs : List (String × J)) (m : String) :
    m ∈ validate (J.obj fs) ↔
      m ∈ topKeyErrors fs ∨ m ∈ i18nErrors fs ∨ m ∈ projectsErrors fs
        ∨ m ∈ contextsErrors fs ∨ m ∈ readingErrors fs ∨ m ∈ phdErrors fs
        ∨ m ∈ proofErrors fs ∨ m ∈ bmiErrors fs := by
  simp [validate, List.mem_append, or_assoc]

/-! Inventory lemmas: the messages each section can emit. -/

theorem topKeyErrors_mem (fs : List (String × J)) (m : String) (hm : m ∈ topKeyErrors fs) :
    m ∈ ["Missing required top-level key: person", "Missing required top-level key: i18n",
         "Missing required top-level key: projects"] := by
  unfold topKeyErrors at hm
  split at hm <;> split at hm <;> split at hm <;> simp_all <;> tauto

theorem i18nLangErrors_mem (ifs : List (String × J)) (lang m : String)
    (hm : m ∈ i18nLangErrors ifs lang) :
    m = "i18n missing language: " ++ lang ∨ m = "i18n." ++ lang ++ " must be an object" := by
  unfold i18nLangErrors at hm
  split at hm
  · simp_all
  · split at hm <;> simp_all

theorem i18nErrors_mem (fs : List (String × J)) (m : String) (hm : m ∈ i18nErrors fs) :
    m ∈ ["i18n must be an object", "i18n missing language: en", "i18n.en must be an object",
         "i18n missing language: it", "i18n.it must be an object"] := by
  unfold i18nErrors at hm
  split at hm
  · simp_all
  · rcases List.mem_append.mp hm with h | h <;>
      rcases i18nLangErrors_mem _ _ _ h with h | h <;> subst h <;> decide
  · simp_all

theorem contextsErrors_mem (fs : List (String × J)) (m : String) (hm : m ∈ contextsErrors fs) :
    m ∈ ["contexts must be an object", "contexts.disclaimer must be string or localized object",
         "contexts.direct_work must be an array",
         "contexts.operational_exposure must be an array"] := by
  unfold contextsErrors at hm
  split at hm
  · simp_all
  · simp only [List.mem_append] at hm
    rcases hm with (h | h) | h <;> (split at h <;> [skip; split at h] <;> simp_all)
  · simp_all

theorem readingErrors_mem (fs : List (String × J)) (m : String) (hm : m ∈ readingErrors fs) :
    m ∈ ["reading must be an object", "reading.domains must be an array"] := by
  unfold readingErrors at hm
  split at hm
  · simp_all
  · split at hm <;> simp_all
  · simp_all

theorem bmiErrors_mem (fs : List (String × J)) (m : String) (hm : m ∈ bmiErrors fs) :
    m ∈ ["projects must include id=bmi",
         "projects[id=bmi].evidence_bullets must be an array of strings",
         "projects[id=bmi].evidence_bullets must have 4–8 items"] := by
  unfold bmiErrors at hm
  split at hm
  · split at hm
    · simp_all
    · unfold evidenceErrors at hm
      split at hm
      · simp_all
      · split at hm
        · split at hm <;> simp_all
        · simp_all
      · simp_all
    · simp_all
  · simp_all

theorem phdKeyErrors_mem (pfs : List (String × J)) (key m : String)
    (hm : m ∈ phdKeyErrors pfs key) :
    m = phdMissingMsg key ∨ m = phdArrayMsg key := by
  unfold phdKeyErrors at hm
  split at hm
  · simp_all
  · split at hm <;> simp_all

theorem phdErrors_mem (fs : List (String × J)) (m : String) (hm : m ∈ phdErrors fs) :
    m = "Missing required top-level key: phd_extract" ∨ m = "phd_extract must be an object"
      ∨ m = "phd_extract.source must be an object"
      ∨ ∃ key, key ∈ phdRequiredArrays ∧ (m = phdMissingMsg key ∨ m = phdArrayMsg key) := by
  unfold phdErrors at hm
  split at hm
  · simp_all
  · rcases List.mem_append.mp hm with h | h
    · split at h <;> simp_all
    · simp only [List.mem_flatten, List.mem_map] at h
      obtain ⟨l, ⟨key, hk, rfl⟩, hml⟩ := h
      exact Or.inr (Or.inr (Or.inr ⟨key, hk, phdKeyErrors_mem _ _ _ hml⟩))
  · simp_all

theorem domomeaItemErrors_mem (k : Nat) (ifs : List (String × J)) (m : String)
    (hm : m ∈ domomeaItemErrors k ifs) :
    m = domomeaBulletsTypeMsg k ∨ m = domomeaBulletsRangeMsg k ∨ m = domomeaSourceMsg k := by
  unfold domomeaItemErrors at hm
  rcases List.mem_append.mp hm with h | h
  · split at h
    · split at h
      · split at h <;> simp_all
      · simp_all
    · simp_all
  · split at h <;> simp_all

theorem domomeaLoop_mem (ds : List (List (String × J))) : ∀ (k : Nat) (m : String),
    m ∈ domomeaLoop k ds →
      ∃ j ifs, ds.get? j = some ifs ∧ m ∈ domomeaItemErrors (k + j) ifs := by
  induction ds with
  | nil => intro k m hm; simp [domomeaLoop] at hm
  | cons d rest ih =>
    intro k m hm
    rcases List.mem_append.mp hm with h | h
    · exact ⟨0, d, rfl, by simpa using h⟩
    · obtain ⟨j, ifs, hj, hmem⟩ := ih (k + 1) m h
      have he : k + 1 + j = k + (j + 1) := by omega
      rw [he] at hmem
      exact ⟨j + 1, ifs, by simpa using hj, hmem⟩

theorem domomeaLoop_mem_of (ds : List (List (String × J))) :
    ∀ (k j : Nat) (ifs : List (String × J)) (m : String), ds.get? j = some ifs →
      m ∈ domomeaItemErrors (k + j) ifs → m ∈ domomeaLoop k ds := by
  induction ds with
  | nil => intro k j ifs m hj; simp at hj
  | cons d rest ih =>
    intro k j ifs m hj hmem
    cases j with
    | zero =>
      have hj2 : some d = some ifs := hj
      cases hj2
      exact List.mem_append.mpr (Or.inl (by simpa using hmem))
    | succ j =>
      have hj2 : rest.get? j = some ifs := hj
      refine List.mem_append.mpr (Or.inr ?_)
      have he : k + (j + 1) = k + 1 + j := by omega
      rw [he] at hmem
      exact ih (k + 1) j ifs m hj2 hmem

theorem proofErrors_mem (fs : List (String × J)) (m : String) (hm : m ∈ proofErrors fs) :
    proofMsgShape m := by
  unfold proofErrors at hm
  split at hm
  · split at hm
    · split at hm
      · left; simp_all
      · obtain ⟨j, ifs, hj, hmem⟩ := domomeaLoop_mem _ _ _ hm
        rcases domomeaItemErrors_mem _ _ _ hmem with h | h | h <;> subst h <;> right
        · exact ⟨(Nat.repr (1 + j)).data ++ " bullets must be an array of strings".data,
            by simp [domomeaBulletsTypeMsg, String.data_append]⟩
        · exact ⟨(Nat.repr (1 + j)).data ++ " bullets must have 6–10 items".data,
            by simp [domomeaBulletsRangeMsg, String.data_append]⟩
        · exact ⟨(Nat.repr (1 + j)).data ++ " source must be a string or localized object".data,
            by simp [domomeaSourceMsg, String.data_append]⟩
    · simp_all
  · simp_all

/-! Shape lemmas for the messages of the projects section. -/

theorem projPrefixed_nonEmptyIdMsg (idx : Nat) : projPrefixed (nonEmptyIdMsg idx) := by
  constructor
  · exact ⟨(Nat.repr idx).data ++ "].id must be a non-empty string".data,
      by simp [nonEmptyIdMsg, String.data_append]⟩
  · right; left
    show ((("projects[" ++ Nat.repr idx) ++ "].id must be a non-empty string")).data.getLast?
      = some 'g'
    rw [String.data_append, getLast?_append_right _ _ (by decide)]
    decide

theorem projPrefixed_projObjMsg (idx : Nat) : projPrefixed (projObjMsg idx) := by
  constructor
  · exact ⟨(Nat.repr idx).data ++ "] must be an object".data,
      by simp [projObjMsg, String.data_append]⟩
  · left
    show ((("projects[" ++ Nat.repr idx) ++ "] must be an object")).data.getLast? = some 't'
    rw [String.data_append, getLast?_append_right _ _ (by decide)]
    decide

theorem projPrefixed_containedArrMsg (idx : Nat) : projPrefixed (containedArrMsg idx) := by
  constructor
  · exact ⟨(Nat.repr idx).data ++ "].contained must be an array".data,
      by simp [containedArrMsg, String.data_append]⟩
  · right; right
    show ((("projects[" ++ Nat.repr idx) ++ "].contained must be an array")).data.getLast?
      = some 'y'
    rw [String.data_append, getLast?_append_right _ _ (by decide)]
    decide

theorem projPrefixed_containedObjMsg (idx cidx : Nat) : projPrefixed (containedObjMsg idx cidx) := by
  constructor
  · exact ⟨(Nat.repr idx).data ++ "].contained[".data ++ (Nat.repr cidx).data
        ++ "] must be an object".data,
      by simp [containedObjMsg, String.data_append]⟩
  · left
    show (((("projects[" ++ Nat.repr idx) ++ "].contained[") ++ Nat.repr cidx)
        ++ "] must be an object").data.getLast? = some 't'
    rw [String.data_append, getLast?_append_right _ _ (by decide)]
    decide

theorem projPrefixed_containedNameMsg (idx cidx : Nat) :
    projPrefixed (containedNameMsg idx cidx) := by
  constructor
  · exact ⟨(Nat.repr idx).data ++ "].contained[".data ++ (Nat.repr cidx).data
        ++ "].name must be string or localized object".data,
      by simp [containedNameMsg, String.data_append]⟩
  · left
    show (((("projects[" ++ Nat.repr idx) ++ "].contained[") ++ Nat.repr cidx)
        ++ "].name must be string or localized object").data.getLast? = some 't'
    rw [String.data_append, getLast?_append_right _ _ (by decide)]
    decide

theorem projPrefixed_containedTaglineMsg (idx cidx : Nat) :
    projPrefixed (containedTaglineMsg idx cidx) := by
  constructor
  · exact ⟨(Nat.repr idx).data ++ "].contained[".data ++ (Nat.repr cidx).data
        ++ "].tagline must be string or localized object".data,
      by simp [containedTaglineMsg, String.data_append]⟩
  · left
    show (((("projects[" ++ Nat.repr idx) ++ "].contained[") ++ Nat.repr cidx)
        ++ "].tagline must be string or localized object").data.getLast? = some 't'
    rw [String.data_append, getLast?_append_right _ _ (by decide)]
    decide

theorem projPrefixed_specObjMsg (idx : Nat) : projPrefixed (specObjMsg idx) := by
  constructor
  · exact ⟨(Nat.repr idx).data ++ "].spec must be an object".data,
      by simp [specObjMsg, String.data_append]⟩
  · left
    show ((("projects[" ++ Nat.repr idx) ++ "].spec must be an object")).data.getLast? = some 't'
    rw [String.data_append, getLast?_append_right _ _ (by decide)]
    decide

theorem projPrefixed_specStatusMsg (idx : Nat) : projPrefixed (specStatusMsg idx) := by
  constructor
  · exact ⟨(Nat.repr idx).data ++ "].spec.status must be a string".data,
      by simp [specStatusMsg, String.data_append]⟩
  · right; left
    show ((("projects[" ++ Nat.repr idx) ++ "].spec.status must be a string")).data.getLast?
      = some 'g'
    rw [String.data_append, getLast?_append_right _ _ (by decide)]
    decide

theorem projPrefixed_specLocMsg (idx : Nat) (key : String) :
    projPrefixed (specLocMsg idx key) := by
  constructor
  · exact ⟨(Nat.repr idx).data ++ "].spec.".data ++ key.data
        ++ " must be string or localized object".data,
      by simp [specLocMsg, String.data_append]⟩
  · left
    show (((("projects[" ++ Nat.repr idx) ++ "].spec.") ++ key)
        ++ " must be string or localized object").data.getLast? = some 't'
    rw [String.data_append, getLast?_append_right _ _ (by decide)]
    decide

theorem projPrefixed_specListMsg (idx : Nat) (key : String) :
    projPrefixed (specListMsg idx key) := by
  constructor
  · exact ⟨(Nat.repr idx).data ++ "].spec.".data ++ key.data ++ " must be an array".data,
      by simp [specListMsg, String.data_append]⟩
  · right; right
    show (((("projects[" ++ Nat.repr idx) ++ "].spec.") ++ key)
        ++ " must be an array").data.getLast? = some 'y'
    rw [String.data_append, getLast?_append_right _ _ (by decide)]
    decide

theorem idErrors_shape (idx : Nat) (seen : List String) (pfs : List (String × J)) (m : String)
    (hm : m ∈ idErrors idx seen pfs) :
    (∃ s, isBlank s = false ∧ seen.contains s = true ∧ m = dupIdMsg s) ∨ projPrefixed m := by
  unfold idErrors at hm
  split at hm
  · rename_i pid hpid
    split at hm
    · rw [List.mem_singleton] at hm; subst hm
      exact Or.inr (projPrefixed_nonEmptyIdMsg idx)
    · rename_i hblank
      split at hm
      · rename_i hseen
        rw [List.mem_singleton] at hm; subst hm
        exact Or.inl ⟨pid, by simpa using hblank, hseen, rfl⟩
      · simp at hm
  · rw [List.mem_singleton] at hm; subst hm
    exact Or.inr (projPrefixed_nonEmptyIdMsg idx)

theorem containedItemErrors_shape (idx cidx : Nat) (item : J) (m : String)
    (hm : m ∈ containedItemErrors idx cidx item) : projPrefixed m := by
  unfold containedItemErrors at hm
  split at hm
  · rcases List.mem_append.mp hm with h | h
    · split at h
      · simp at h
      · rw [List.mem_singleton] at h; subst h
        exact projPrefixed_containedNameMsg idx cidx
    · split at h
      · simp at h
      · split at h
        · simp at h
        · rw [List.mem_singleton] at h; subst h
          exact projPrefixed_containedTaglineMsg idx cidx
  · rw [List.mem_singleton] at hm; subst hm
    exact projPrefixed_containedObjMsg idx cidx

theorem containedLoop_shape (items : List J) : ∀ (idx cidx : Nat) (m : String),
    m ∈ containedLoop idx cidx items → projPrefixed m := by
  induction items with
  | nil => intro idx cidx m hm; simp [containedLoop] at hm
  | cons item rest ih =>
    intro idx cidx m hm
    rcases List.mem_append.mp hm with h | h
    · exact containedItemErrors_shape _ _ _ _ h
    · exact ih idx (cidx + 1) m h

theorem containedErrors_shape (idx : Nat) (pfs : List (String × J)) (m : String)
    (hm : m ∈ containedErrors idx pfs) : projPrefixed m := by
  unfold containedErrors at hm
  split at hm
  · simp at hm
  · exact containedLoop_shape _ _ _ _ hm
  · rw [List.mem_singleton] at hm; subst hm
    exact projPrefixed_containedArrMsg idx

theorem specKeyLocErrors_shape (idx : Nat) (sfs : List (String × J)) (key m : String)
    (hm : m ∈ specKeyLocErrors idx sfs key) : projPrefixed m := by
  unfold specKeyLocErrors at hm
  split at hm
  · simp at hm
  · split at hm
    · simp at hm
    · rw [List.mem_singleton] at hm; subst hm
      exact projPrefixed_specLocMsg idx key

theorem specKeyListErrors_shape (idx : Nat) (sfs : List (String × J)) (key m : String)
    (hm : m ∈ specKeyListErrors idx sfs key) : projPrefixed m := by
  unfold specKeyListErrors at hm
  split at hm
  · simp at hm
  · split at hm
    · simp at hm
    · rw [List.mem_singleton] at hm; subst hm
      exact projPrefixed_specListMsg idx key

theorem specErrors_shape (idx : Nat) (pfs : List (String × J)) (m : String)
    (hm : m ∈ specErrors idx pfs) : projPrefixed m := by
  unfold specErrors at hm
  split at hm
  · simp at hm
  · simp only [List.mem_append] at hm
    rcases hm with ((((((h | h) | h) | h) | h) | h) | h) | h
    · split at h
      · simp at h
      · split at h
        · simp at h
        · rw [List.mem_singleton] at h; subst h
          exact projPrefixed_specStatusMsg idx
    · exact specKeyLocErrors_shape _ _ _ _ h
    · exact specKeyLocErrors_shape _ _ _ _ h
    · exact specKeyListErrors_shape _ _ _ _ h
    · exact specKeyListErrors_shape _ _ _ _ h
    · exact specKeyListErrors_shape _ _ _ _ h
    · exact specKeyListErrors_shape _ _ _ _ h
    · exact specKeyListErrors_shape _ _ _ _ h
  · rw [List.mem_singleton] at hm; subst hm
    exact projPrefixed_specObjMsg idx

theorem stepErrors_shape (idx : Nat) (seen : List String) (p : J) (m : String)
    (hm : m ∈ stepErrors idx seen p) :
    (∃ s, isBlank s = false ∧ seen.contains s = true ∧ m = dupIdMsg s) ∨ projPrefixed m := by
  unfold stepErrors at hm
  split at hm
  · simp only [List.mem_append] at hm
    rcases hm with (h | h) | h
    · exact idErrors_shape _ _ _ _ h
    · exact Or.inr (containedErrors_shape _ _ _ h)
    · exact Or.inr (specErrors_shape _ _ _ h)
  · rw [List.mem_singleton] at hm; subst hm
    exact Or.inr (projPrefixed_projObjMsg idx)

theorem projLoop_shape (ps : List J) : ∀ (idx : Nat) (seen : List String) (m : String),
    m ∈ projLoop idx seen ps →
      (∃ s, isBlank s = false ∧ m = dupIdMsg s) ∨ projPrefixed m := by
  induction ps with
  | nil => intro idx seen m hm; simp [projLoop] at hm
  | cons p rest ih =>
    intro idx seen m hm
    rcases List.mem_append.mp hm with h | h
    · rcases stepErrors_shape _ _ _ _ h with ⟨s, hb, _, he⟩ | h2
      · exact Or.inl ⟨s, hb, he⟩
      · exact Or.inr h2
    · exact ih (idx + 1) (seenUpd seen p) m h

theorem projectsErrors_shape (fs : List (String × J)) (m : String)
    (hm : m ∈ projectsErrors fs) :
    m = "projects must be an array" ∨ (∃ s, isBlank s = false ∧ m = dupIdMsg s)
      ∨ projPrefixed m := by
  unfold projectsErrors at hm
  split at hm
  · simp at hm
  · rcases projLoop_shape _ _ _ _ hm with h | h
    · exact Or.inr (Or.inl h)
    · exact Or.inr (Or.inr h)
  · rw [List.mem_singleton] at hm; subst hm
    exact Or.inl rfl

/-! Inequality and exclusion lemmas between messages of different sections. -/

theorem dupIdMsg_inj {a b : String} (h : dupIdMsg a = dupIdMsg b) : a = b := by
  have hd := congrArg String.data h
  simp only [dupIdMsg, String.data_append] at hd
  exact string_ext _ _ (List.append_cancel_left hd)

theorem projPrefixed_ne_dup {m : String} (h : projPrefixed m) (s : String) : m ≠ dupIdMsg s := by
  intro e
  obtain ⟨⟨t, ht⟩, _⟩ := h
  rw [e] at ht
  simp [dupIdMsg, String.data_append] at ht

theorem dupIdMsg_not_in_others (fs : List (String × J)) (s : String) :
    dupIdMsg s ∉ topKeyErrors fs ∧ dupIdMsg s ∉ i18nErrors fs ∧ dupIdMsg s ∉ contextsErrors fs
      ∧ dupIdMsg s ∉ readingErrors fs ∧ dupIdMsg s ∉ phdErrors fs
      ∧ dupIdMsg s ∉ proofErrors fs ∧ dupIdMsg s ∉ bmiErrors fs := by
  refine ⟨?_, ?_, ?_, ?_, ?_, ?_, ?_⟩
  · intro h
    have hx := topKeyErrors_mem _ _ h
    simp only [List.mem_cons, List.not_mem_nil, or_false] at hx
    rcases hx with h1 | h1 | h1 <;>
      (have hd := congrArg String.data h1; simp [dupIdMsg, String.data_append] at hd)
  · intro h
    have hx := i18nErrors_mem _ _ h
    simp only [List.mem_cons, List.not_mem_nil, or_false] at hx
    rcases hx with h1 | h1 | h1 | h1 | h1 <;>
      (have hd := congrArg String.data h1; simp [dupIdMsg, String.data_append] at hd)
  · intro h
    have hx := contextsErrors_mem _ _ h
    simp only [List.mem_cons, List.not_mem_nil, or_false] at hx
    rcases hx with h1 | h1 | h1 | h1 <;>
      (have hd := congrArg String.data h1; simp [dupIdMsg, String.data_append] at hd)
  · intro h
    have hx := readingErrors_mem _ _ h
    simp only [List.mem_cons, List.not_mem_nil, or_false] at hx
    rcases hx with h1 | h1 <;>
      (have hd := congrArg String.data h1; simp [dupIdMsg, String.data_append] at hd)
  · intro h
    rcases phdErrors_mem _ _ h with h1 | h1 | h1 | ⟨key, _, h1 | h1⟩ <;>
      (have hd := congrArg String.data h1;
       simp [dupIdMsg, phdMissingMsg, phdArrayMsg, String.data_append] at hd)
  · intro h
    rcases proofErrors_mem _ _ h with h1 | ⟨t, h1⟩
    · have hd := congrArg String.data h1
      simp [dupIdMsg, String.data_append] at hd
    · simp [dupIdMsg, String.data_append] at h1
  · intro h
    have hx := bmiErrors_mem _ _ h
    simp only [List.mem_cons, List.not_mem_nil, or_false] at hx
    rcases hx with h1 | h1 | h1 <;>
      (have hd := congrArg String.data h1; simp [dupIdMsg, String.data_append] at hd)

theorem bmiRangeMsg_not_in_others (fs : List (String × J)) :
    "projects[id=bmi].evidence_bullets must have 4–8 items" ∉ topKeyErrors fs
      ∧ "projects[id=bmi].evidence_bullets must have 4–8 items" ∉ i18nErrors fs
      ∧ "projects[id=bmi].evidence_bullets must have 4–8 items" ∉ projectsErrors fs
      ∧ "projects[id=bmi].evidence_bullets must have 4–8 items" ∉ contextsErrors fs
      ∧ "projects[id=bmi].evidence_bullets must have 4–8 items" ∉ readingErrors fs
      ∧ "projects[id=bmi].evidence_bullets must have 4–8 items" ∉ phdErrors fs
      ∧ "projects[id=bmi].evidence_bullets must have 4–8 items" ∉ proofErrors fs := by
  refine ⟨?_, ?_, ?_, ?_, ?_, ?_, ?_⟩
  · intro h; exact absurd (topKeyErrors_mem _ _ h) (by decide)
  · intro h; exact absurd (i18nErrors_mem _ _ h) (by decide)
  · intro h
    rcases projectsErrors_shape _ _ h with h1 | ⟨s, _, h1⟩ | hp
    · exact absurd h1 (by decide)
    · have hd := congrArg String.data h1
      simp [dupIdMsg, String.data_append] at hd
    · rcases hp.2 with hc | hc | hc <;> exact absurd hc (by decide)
  · intro h; exact absurd (contextsErrors_mem _ _ h) (by decide)
  · intro h; exact absurd (readingErrors_mem _ _ h) (by decide)
  · intro h
    rcases phdErrors_mem _ _ h with h1 | h1 | h1 | ⟨key, _, h1 | h1⟩ <;>
      first
        | exact absurd h1 (by decide)
        | (have hd := congrArg String.data h1;
           simp [phdMissingMsg, phdArrayMsg, String.data_append] at hd)
  · intro h
    rcases proofErrors_mem _ _ h with h1 | ⟨t, h1⟩
    · exact absurd h1 (by decide)
    · simp [String.data_append] at h1

theorem domomeaRangeMsg_not_in_others (fs : List (String × J)) (k : Nat) :
    domomeaBulletsRangeMsg k ∉ topKeyErrors fs
      ∧ domomeaBulletsRangeMsg k ∉ i18nErrors fs
      ∧ domomeaBulletsRangeMsg k ∉ projectsErrors fs
      ∧ domomeaBulletsRangeMsg k ∉ contextsErrors fs
      ∧ domomeaBulletsRangeMsg k ∉ readingErrors fs
      ∧ domomeaBulletsRangeMsg k ∉ phdErrors fs
      ∧ domomeaBulletsRangeMsg k ∉ bmiErrors fs := by
  refine ⟨?_, ?_, ?_, ?_, ?_, ?_, ?_⟩
  · intro h
    have hx := topKeyErrors_mem _ _ h
    simp only [List.mem_cons, List.not_mem_nil, or_false] at hx
    rcases hx with h1 | h1 | h1 <;>
      (have hd := congrArg String.data h1;
       simp [domomeaBulletsRangeMsg, String.data_append] at hd)
  · intro h
    have hx := i18nErrors_mem _ _ h
    simp only [List.mem_cons, List.not_mem_nil, or_false] at hx
    rcases hx with h1 | h1 | h1 | h1 | h1 <;>
      (have hd := congrArg String.data h1;
       simp [domomeaBulletsRangeMsg, String.data_append] at hd)
  · intro h
    rcases projectsErrors_shape _ _ h with h1 | ⟨s, _, h1⟩ | hp
    · have hd := congrArg String.data h1
      simp [domomeaBulletsRangeMsg, String.data_append] at hd
    · have hd := congrArg String.data h1
      simp [domomeaBulletsRangeMsg, dupIdMsg, String.data_append] at hd
    · obtain ⟨⟨t, ht⟩, _⟩ := hp
      simp [domomeaBulletsRangeMsg, String.data_append] at ht
  · intro h
    have hx := contextsErrors_mem _ _ h
    simp only [List.mem_cons, List.not_mem_nil, or_false] at hx
    rcases hx with h1 | h1 | h1 | h1 <;>
      (have hd := congrArg String.data h1;
       simp [domomeaBulletsRangeMsg, String.data_append] at hd)
  · intro h
    have hx := readingErrors_mem _ _ h
    simp only [List.mem_cons, List.not_mem_nil, or_false] at hx
    rcases hx with h1 | h1 <;>
      (have hd := congrArg String.data h1;
       simp [domomeaBulletsRangeMsg, String.data_append] at hd)
  · intro h
    rcases phdErrors_mem _ _ h with h1 | h1 | h1 | ⟨key, _, h1 | h1⟩ <;>
      (have hd := congrArg String.data h1;
       simp [domomeaBulletsRangeMsg, phdMissingMsg, phdArrayMsg, String.data_append] at hd)
  · intro h
    have hx := bmiErrors_mem _ _ h
    simp only [List.mem_cons, List.not_mem_nil, or_false] at hx
    rcases hx with h1 | h1 | h1 <;>
      (have hd := congrArg String.data h1;
       simp [domomeaBulletsRangeMsg, String.data_append] at hd)

theorem phdArrayMsg_not_in_others (fs : List (String × J)) (key : String) :
    phdArrayMsg key ∉ topKeyErrors fs
      ∧ phdArrayMsg key ∉ i18nErrors fs
      ∧ phdArrayMsg key ∉ projectsErrors fs
      ∧ phdArrayMsg key ∉ contextsErrors fs
      ∧ phdArrayMsg key ∉ readingErrors fs
      ∧ phdArrayMsg key ∉ proofErrors fs
      ∧ phdArrayMsg key ∉ bmiErrors fs := by
  refine ⟨?_, ?_, ?_, ?_, ?_, ?_, ?_⟩
  · intro h
    have hx := topKeyErrors_mem _ _ h
    simp only [List.mem_cons, List.not_mem_nil, or_false] at hx
    rcases hx with h1 | h1 | h1 <;>
      (have hd := congrArg String.data h1; simp [phdArrayMsg, String.data_append] at hd)
  · intro h
    have hx := i18nErrors_mem _ _ h
    simp only [List.mem_cons, List.not_mem_nil, or_false] at hx
    rcases hx with h1 | h1 | h1 | h1 | h1 <;>
      (have hd := congrArg String.data h1; simp [phdArrayMsg, String.data_append] at hd)
  · intro h
    rcases projectsErrors_shape _ _ h with h1 | ⟨s, _, h1⟩ | hp
    · have hd := congrArg String.data h1
      simp [phdArrayMsg, String.data_append] at hd
    · have hd := congrArg String.data h1
      simp [phdArrayMsg, dupIdMsg, String.data_append] at hd
    · obtain ⟨⟨t, ht⟩, _⟩ := hp
      simp [phdArrayMsg, String.data_append] at ht
  · intro h
    have hx := contextsErrors_mem _ _ h
    simp only [List.mem_cons, List.not_mem_nil, or_false] at hx
    rcases hx with h1 | h1 | h1 | h1 <;>
      (have hd := congrArg String.data h1; simp [phdArrayMsg, String.data_append] at hd)
  · intro h
    have hx := readingErrors_mem _ _ h
    simp only [List.mem_cons, List.not_mem_nil, or_false] at hx
    rcases hx with h1 | h1 <;>
      (have hd := congrArg String.data h1; simp [phdArrayMsg, String.data_append] at hd)
  · intro h
    rcases proofErrors_mem _ _ h with h1 | ⟨t, h1⟩
    · have hd := congrArg String.data h1
      simp [phdArrayMsg, String.data_append] at hd
    · simp [phdArrayMsg, String.data_append] at h1
  · intro h
    have hx := bmiErrors_mem _ _ h
    simp only [List.mem_cons, List.not_mem_nil, or_false] at hx
    rcases hx with h1 | h1 | h1 <;>
      (have hd := congrArg String.data h1; simp [phdArrayMsg, String.data_append] at hd)

theorem proofShape_not_in_others (fs : List (String × J)) (m : String)
    (hm : m ∈ topKeyErrors fs ∨ m ∈ i18nErrors fs ∨ m ∈ projectsErrors fs
      ∨ m ∈ contextsErrors fs ∨ m ∈ readingErrors fs ∨ m ∈ phdErrors fs
      ∨ m ∈ bmiErrors fs) : ¬ proofMsgShape m := by
  intro hp
  rcases hp with hfix | ⟨t, ht⟩
  · subst hfix
    rcases hm with h | h | h | h | h | h | h
    · exact absurd (topKeyErrors_mem _ _ h) (by decide)
    · exact absurd (i18nErrors_mem _ _ h) (by decide)
    · rcases projectsErrors_shape _ _ h with h1 | ⟨s, _, h1⟩ | hp2
      · exact absurd h1 (by decide)
      · have hd := congrArg String.data h1
        simp [dupIdMsg, String.data_append] at hd
      · obtain ⟨⟨t2, ht2⟩, _⟩ := hp2
        simp [String.data_append] at ht2
    · exact absurd (contextsErrors_mem _ _ h) (by decide)
    · exact absurd (readingErrors_mem _ _ h) (by decide)
    · rcases phdErrors_mem _ _ h with h1 | h1 | h1 | ⟨key, _, h1 | h1⟩ <;>
        first
          | exact absurd h1 (by decide)
          | (have hd := congrArg String.data h1;
             simp [phdMissingMsg, phdArrayMsg, String.data_append] at hd)
    · exact absurd (bmiErrors_mem _ _ h) (by decide)
  · rcases hm with h | h | h | h | h | h | h
    · have hx := topKeyErrors_mem _ _ h
      simp only [List.mem_cons, List.not_mem_nil, or_false] at hx
      rcases hx with h1 | h1 | h1 <;> (subst h1; simp [String.data_append] at ht)
    · have hx := i18nErrors_mem _ _ h
      simp only [List.mem_cons, List.not_mem_nil, or_false] at hx
      rcases hx with h1 | h1 | h1 | h1 | h1 <;> (subst h1; simp [String.data_append] at ht)
    · rcases projectsErrors_shape _ _ h with h1 | ⟨s, _, h1⟩ | hp2
      · subst h1; simp [String.data_append] at ht
      · subst h1; simp [dupIdMsg, String.data_append] at ht
      · obtain ⟨⟨t2, ht2⟩, _⟩ := hp2
        rw [ht] at ht2
        simp [String.data_append] at ht2
    · have hx := contextsErrors_mem _ _ h
      simp only [List.mem_cons, List.not_mem_nil, or_false] at hx
      rcases hx with h1 | h1 | h1 | h1 <;> (subst h1; simp [String.data_append] at ht)
    · have hx := readingErrors_mem _ _ h
      simp only [List.mem_cons, List.not_mem_nil, or_false] at hx
      rcases hx with h1 | h1 <;> (subst h1; simp [String.data_append] at ht)
    · rcases phdErrors_mem _ _ h with h1 | h1 | h1 | ⟨key, _, h1 | h1⟩ <;>
        (subst h1; simp [phdMissingMsg, phdArrayMsg, String.data_append] at ht)
    · have hx := bmiErrors_mem _ _ h
      simp only [List.mem_cons, List.not_mem_nil, or_false] at hx
      rcases hx with h1 | h1 | h1 <;> (subst h1; simp [String.data_append] at ht)

/-! Counting duplicate-id messages through the projects loop. -/

theorem contains_iff_mem (seen : List String) (a : String) :
    seen.contains a = true ↔ a ∈ seen := by
  simp [List.contains, List.elem_iff]

theorem idErrors_count_dup (s : String) (hs : isBlank s = false) (idx : Nat)
    (seen : List String) (pfs : List (String × J)) :
    (idErrors idx seen pfs).count (dupIdMsg s)
      = if hasId s (J.obj pfs) = true ∧ s ∈ seen then 1 else 0 := by
  have hne : dupIdMsg s ∉ [nonEmptyIdMsg idx] := by
    rw [List.mem_singleton]
    exact Ne.symm (projPrefixed_ne_dup (projPrefixed_nonEmptyIdMsg idx) s)
  rw [show hasId s (J.obj pfs)
      = (match pyGet pfs "id" with | J.str pid => pid == s | _ => false) from rfl]
  unfold idErrors
  split
  · rename_i pid hpid
    by_cases hb : isBlank pid = true
    · have hps : (pid == s) = false := by
        refine beq_eq_false_iff_ne.mpr ?_
        intro e
        subst e
        exact absurd hb (by simp [hs])
      rw [if_pos hb, List.count_eq_zero.mpr hne, if_neg (by simp [hps])]
    · rw [if_neg hb]
      by_cases hc : seen.contains pid = true
      · rw [if_pos hc, List.count_singleton]
        by_cases hps : pid = s
        · subst hps
          rw [if_pos (by simp), if_pos ⟨by simp, (contains_iff_mem _ _).mp hc⟩]
        · rw [if_neg (by simp [dupIdMsg_inj, hps]; intro e; exact hps (dupIdMsg_inj e)),
            if_neg (by simp [hps])]
      · rw [if_neg hc, List.count_nil]
        by_cases hps : pid = s
        · subst hps
          rw [if_neg]
          intro ⟨_, hmem⟩
          exact hc ((contains_iff_mem _ _).mpr hmem)
        · rw [if_neg (by simp [hps])]
  · rw [List.count_eq_zero.mpr hne, if_neg (by simp)]

theorem stepErrors_count_dup (s : String) (hs : isBlank s = false) (idx : Nat)
    (seen : List String) (p : J) :
    (stepErrors idx seen p).count (dupIdMsg s)
      = if hasId s p = true ∧ s ∈ seen then 1 else 0 := by
  cases p with
  | obj pfs =>
    have hcon : (containedErrors idx pfs).count (dupIdMsg s) = 0 :=
      List.count_eq_zero.mpr
        (fun h => projPrefixed_ne_dup (containedErrors_shape _ _ _ h) s rfl)
    have hspec : (specErrors idx pfs).count (dupIdMsg s) = 0 :=
      List.count_eq_zero.mpr
        (fun h => projPrefixed_ne_dup (specErrors_shape _ _ _ h) s rfl)
    show (idErrors idx seen pfs ++ containedErrors idx pfs ++ specErrors idx pfs).count _ = _
    rw [List.count_append, List.count_append, hcon, hspec,
      idErrors_count_dup s hs idx seen pfs]
    omega
  | null =>
    show ([projObjMsg idx]).count (dupIdMsg s) = _
    rw [List.count_eq_zero.mpr (by
      rw [List.mem_singleton]
      exact Ne.symm (projPrefixed_ne_dup (projPrefixed_projObjMsg idx) s)), if_neg (by simp [hasId])]
  | bool b =>
    show ([projObjMsg idx]).count (dupIdMsg s) = _
    rw [List.count_eq_zero.mpr (by
      rw [List.mem_singleton]
      exact Ne.symm (projPrefixed_ne_dup (projPrefixed_projObjMsg idx) s)), if_neg (by simp [hasId])]
  | num n =>
    show ([projObjMsg idx]).count (dupIdMsg s) = _
    rw [List.count_eq_zero.mpr (by
      rw [List.mem_singleton]
      exact Ne.symm (projPrefixed_ne_dup (projPrefixed_projObjMsg idx) s)), if_neg (by simp [hasId])]
  | str t =>
    show ([projObjMsg idx]).count (dupIdMsg s) = _
    rw [List.count_eq_zero.mpr (by
      rw [List.mem_singleton]
      exact Ne.symm (projPrefixed_ne_dup (projPrefixed_projObjMsg idx) s)), if_neg (by simp [hasId])]
  | arr xs =>
    show ([projObjMsg idx]).count (dupIdMsg s) = _
    rw [List.count_eq_zero.mpr (by
      rw [List.mem_singleton]
      exact Ne.symm (projPrefixed_ne_dup (projPrefixed_projObjMsg idx) s)), if_neg (by simp [hasId])]

theorem seenUpd_mem_iff (s : String) (hs : isBlank s = false) (seen : List String) (p : J) :
    s ∈ seenUpd seen p ↔ (s ∈ seen ∨ hasId s p = true) := by
  unfold seenUpd hasId
  split
  · rename_i pfs
    split
    · rename_i pid hpid
      by_cases hb : isBlank pid = true
      · have hps : (pid == s) = false := by
          refine beq_eq_false_iff_ne.mpr ?_
          intro e
          subst e
          exact absurd hb (by simp [hs])
        simp [hb, hps]
      · rw [if_neg hb]
        by_cases hc : seen.contains pid = true
        · rw [if_pos hc]
          by_cases hps : pid = s
          · subst hps
            simp [(contains_iff_mem _ _).mp hc]
          · simp [hps, beq_eq_false_iff_ne.mpr hps]
        · rw [if_neg hc]
          by_cases hps : pid = s
          · subst hps
            simp [List.mem_cons]
          · simp [List.mem_cons, hps, Ne.symm hps, beq_eq_false_iff_ne.mpr hps]
    · simp
  · simp

theorem projLoop_count_dup (s : String) (hs : isBlank s = false) (ps : List J) :
    ∀ (idx : Nat) (seen : List String),
      (projLoop idx seen ps).count (dupIdMsg s)
        = ps.countP (hasId s) - (if s ∈ seen then 0 else 1) := by
  induction ps with
  | nil => intro idx seen; simp [projLoop]
  | cons p rest ih =>
    intro idx seen
    show (stepErrors idx seen p ++ projLoop (idx + 1) (seenUpd seen p) rest).count _ = _
    rw [List.count_append, stepErrors_count_dup s hs, ih (idx + 1) (seenUpd seen p),
      List.countP_cons]
    have hupd := seenUpd_mem_iff s hs seen p
    by_cases h1 : hasId s p = true
    · by_cases h2 : s ∈ seen
      · rw [if_pos ⟨h1, h2⟩, if_pos (hupd.mpr (Or.inl h2)), if_pos h1, if_pos h2]
        omega
      · rw [if_neg (by intro hx; exact h2 hx.2), if_pos (hupd.mpr (Or.inr h1)), if_pos h1,
          if_neg h2]
        omega
    · by_cases h2 : s ∈ seen
      · rw [if_neg (by intro hx; exact h1 hx.1), if_pos (hupd.mpr (Or.inl h2)), if_neg h1,
          if_pos h2]
        omega
      · rw [if_neg (by intro hx; exact h1 hx.1), if_neg (by
          intro hx
          rcases hupd.mp hx with hx2 | hx2
          · exact h2 hx2
          · exact h1 hx2), if_neg h1, if_neg h2]
        omega

theorem validate_count_dup (fs : List (String × J)) (s : String) :
    (validate (J.obj fs)).count (dupIdMsg s) = (projectsErrors fs).count (dupIdMsg s) := by
  obtain ⟨h1, h2, h3, h4, h5, h6, h7⟩ := dupIdMsg_not_in_others fs s
  show (topKeyErrors fs ++ i18nErrors fs ++ projectsErrors fs ++ contextsErrors fs
      ++ readingErrors fs ++ phdErrors fs ++ proofErrors fs ++ bmiErrors fs).count _ = _
  repeat rw [List.count_append]
  rw [List.count_eq_zero.mpr h1, List.count_eq_zero.mpr h2, List.count_eq_zero.mpr h3,
    List.count_eq_zero.mpr h4, List.count_eq_zero.mpr h5, List.count_eq_zero.mpr h6,
    List.count_eq_zero.mpr h7]
  omega

/-! Lemmas about blank ids: the reported message, the seen set, duplicates. -/

theorem projLoop_mem_nonEmpty (ps : List J) :
    ∀ (i idx : Nat) (seen : List String) (pfs : List (String × J)) (s : String),
      ps.get? i = some (J.obj pfs) → pyGet pfs "id" = J.str s → isBlank s = true →
        nonEmptyIdMsg (idx + i) ∈ projLoop idx seen ps := by
  induction ps with
  | nil => intro i idx seen pfs s h; exact Option.noConfusion h
  | cons p rest ih =>
    intro i idx seen pfs s h hid hb
    cases i with
    | zero =>
      have h2 : some p = some (J.obj pfs) := h
      injection h2 with h2
      subst h2
      refine List.mem_append.mpr (Or.inl ?_)
      show nonEmptyIdMsg (idx + 0)
        ∈ idErrors idx seen pfs ++ containedErrors idx pfs ++ specErrors idx pfs
      refine List.mem_append.mpr (Or.inl (List.mem_append.mpr (Or.inl ?_)))
      unfold idErrors
      rw [hid]
      simp [hb]
    | succ i =>
      have h2 : rest.get? i = some (J.obj pfs) := h
      have hr := ih i (idx + 1) (seenUpd seen p) pfs s h2 hid hb
      have he : idx + 1 + i = idx + (i + 1) := by omega
      rw [he] at hr
      exact List.mem_append.mpr (Or.inr hr)

theorem mem_seenUpd (seen : List String) (p : J) (t : String) (h : t ∈ seenUpd seen p) :
    t ∈ seen ∨ isBlank t = false := by
  unfold seenUpd at h
  split at h
  · split at h
    · rename_i pid hpid
      split at h
      · exact Or.inl h
      · split at h
        · exact Or.inl h
        · rename_i hb _
          rcases List.mem_cons.mp h with h2 | h2
          · subst h2
            exact Or.inr (by simpa using hb)
          · exact Or.inl h2
    · exact Or.inl h
  · exact Or.inl h

theorem mem_foldl_seenUpd (ps : List J) : ∀ (seen : List String) (t : String),
    t ∈ ps.foldl seenUpd seen → t ∈ seen ∨ isBlank t = false := by
  induction ps with
  | nil => intro seen t h; exact Or.inl h
  | cons p rest ih =>
    intro seen t h
    rcases ih (seenUpd seen p) t h with h2 | h2
    · exact mem_seenUpd seen p t h2
    · exact Or.inr h2

theorem projLoop_not_mem_dup_blank (s : String) (hb : isBlank s = true) (ps : List J) :
    ∀ (idx : Nat) (seen : List String), dupIdMsg s ∉ projLoop idx seen ps := by
  intro idx seen h
  rcases projLoop_shape _ _ _ _ h with ⟨t, ht, he⟩ | hp
  · have : s = t := dupIdMsg_inj he
    subst this
    rw [hb] at ht
    exact Bool.noConfusion ht
  · exact projPrefixed_ne_dup hp s rfl

/-! Distinctness of the DoMoMEA item messages. -/

theorem domomeaTypeMsg_ne_rangeMsg (k K : Nat) :
    domomeaBulletsTypeMsg k ≠ domomeaBulletsRangeMsg K := by
  intro h
  have e1 : (domomeaBulletsTypeMsg k).data.reverse.take 2 = ['s', 'g'] := by
    show ((("DoMoMEA proof item #" ++ Nat.repr k)
      ++ " bullets must be an array of strings")).data.reverse.take 2 = ['s', 'g']
    rw [String.data_append, revTakeTwo_append _ _ (by decide)]
    decide
  have e2 : (domomeaBulletsRangeMsg K).data.reverse.take 2 = ['s', 'm'] := by
    show ((("DoMoMEA proof item #" ++ Nat.repr K)
      ++ " bullets must have 6–10 items")).data.reverse.take 2 = ['s', 'm']
    rw [String.data_append, revTakeTwo_append _ _ (by decide)]
    decide
  rw [h, e2] at e1
  exact absurd e1 (by decide)

theorem domomeaSourceMsg_ne_rangeMsg (k K : Nat) :
    domomeaSourceMsg k ≠ domomeaBulletsRangeMsg K := by
  intro h
  have e1 : (domomeaSourceMsg k).data.reverse.take 2 = ['t', 'c'] := by
    show ((("DoMoMEA proof item #" ++ Nat.repr k)
      ++ " source must be a string or localized object")).data.reverse.take 2 = ['t', 'c']
    rw [String.data_append, revTakeTwo_append _ _ (by decide)]
    decide
  have e2 : (domomeaBulletsRangeMsg K).data.reverse.take 2 = ['s', 'm'] := by
    show ((("DoMoMEA proof item #" ++ Nat.repr K)
      ++ " bullets must have 6–10 items")).data.reverse.take 2 = ['s', 'm']
    rw [String.data_append, revTakeTwo_append _ _ (by decide)]
    decide
  rw [h, e2] at e1
  exact absurd e1 (by decide)

theorem domomeaRangeMsg_inj {k K : Nat} (h : domomeaBulletsRangeMsg k = domomeaBulletsRangeMsg K) :
    k = K := by
  have hd := congrArg String.data h
  rw [show (domomeaBulletsRangeMsg k).data
      = ("DoMoMEA proof item #" ++ Nat.repr k).data ++ " bullets must have 6–10 items".data
      from String.data_append _ _,
    show (domomeaBulletsRangeMsg K).data
      = ("DoMoMEA proof item #" ++ Nat.repr K).data ++ " bullets must have 6–10 items".data
      from String.data_append _ _] at hd
  have h2 := List.append_cancel_right hd
  rw [String.data_append, String.data_append] at h2
  exact natRepr_inj (string_ext _ _ (List.append_cancel_left h2))

/-! The range message appears in the DoMoMEA loop exactly for an out-of-bounds
item. -/

theorem domomeaLoop_range_of_mem (ds : List (List (String × J))) (i : Nat)
    (ifs : List (String × J)) (bs : List J) (hi : ds.get? i = some ifs)
    (hbul : pyGet ifs "bullets" = J.arr bs) (hall : bs.all J.isStr = true)
    (hmem : domomeaBulletsRangeMsg (i + 1) ∈ domomeaLoop 1 ds) :
    ¬(6 ≤ bs.length ∧ bs.length ≤ 10) := by
  obtain ⟨j, ifs2, hj, hm⟩ := domomeaLoop_mem ds 1 _ hmem
  rcases domomeaItemErrors_mem _ _ _ hm with h | h | h
  · exact absurd h.symm (domomeaTypeMsg_ne_rangeMsg (1 + j) (i + 1))
  · have hk : i + 1 = 1 + j := domomeaRangeMsg_inj h
    have hji : j = i := by omega
    subst hji
    rw [hi] at hj
    injection hj with hj
    subst hj
    intro hbd
    rw [h] at hm
    unfold domomeaItemErrors at hm
    rw [hbul] at hm
    simp only [hall, if_true, hbd, if_pos] at hm
    rcases List.mem_append.mp hm with h2 | h2
    · simp at h2
    · split at h2
      · simp at h2
      · rw [List.mem_singleton] at h2
        exact absurd h2 (Ne.symm (domomeaSourceMsg_ne_rangeMsg (1 + j) (1 + j)))
  · exact absurd h.symm (domomeaSourceMsg_ne_rangeMsg (1 + j) (i + 1))

theorem domomeaLoop_range_of_bounds (ds : List (List (String × J))) (i : Nat)
    (ifs : List (String × J)) (bs : List J) (hi : ds.get? i = some ifs)
    (hbul : pyGet ifs "bullets" = J.arr bs) (hall : bs.all J.isStr = true)
    (hbd : ¬(6 ≤ bs.length ∧ bs.length ≤ 10)) :
    domomeaBulletsRangeMsg (i + 1) ∈ domomeaLoop 1 ds := by
  refine domomeaLoop_mem_of ds 1 i ifs _ hi ?_
  unfold domomeaItemErrors
  rw [hbul]
  simp only [hall, if_true, hbd, if_neg, if_false]
  refine List.mem_append.mpr (Or.inl ?_)
  rw [show (1 : Nat) + i = i + 1 by omega]
  exact List.mem_singleton.mpr rfl

/-! The fallible mirror always succeeds and agrees with the pure validator. -/

theorem i18nLangErrorsOpt_eq (ifs : List (String × J)) (lang : String) :
    i18nLangErrorsOpt ifs lang = some (i18nLangErrors ifs lang) := by
  unfold i18nLangErrorsOpt i18nLangErrors hasKey
  cases h : J.lookup ifs lang <;> simp [h]

theorem i18nErrorsOpt_eq (fs : List (String × J)) :
    i18nErrorsOpt fs = some (i18nErrors fs) := by
  unfold i18nErrorsOpt i18nErrors
  split <;> simp [i18nLangErrorsOpt_eq]

theorem specKeyLocErrorsOpt_eq (idx : Nat) (sfs : List (String × J)) (key : String) :
    specKeyLocErrorsOpt idx sfs key = some (specKeyLocErrors idx sfs key) := by
  unfold specKeyLocErrorsOpt specKeyLocErrors hasKey
  cases h : J.lookup sfs key <;> simp [h]

theorem specKeyListErrorsOpt_eq (idx : Nat) (sfs : List (String × J)) (key : String) :
    specKeyListErrorsOpt idx sfs key = some (specKeyListErrors idx sfs key) := by
  unfold specKeyListErrorsOpt specKeyListErrors hasKey
  cases h : J.lookup sfs key <;> simp [h]

theorem specErrorsOpt_eq (idx : Nat) (pfs : List (String × J)) :
    specErrorsOpt idx pfs = some (specErrors idx pfs) := by
  unfold specErrorsOpt specErrors
  split
  · rfl
  · rename_i sfs hsfs
    cases h : J.lookup sfs "status" <;>
      simp [hasKey, h, specKeyLocErrorsOpt_eq, specKeyListErrorsOpt_eq]
  · rfl

theorem stepErrorsOpt_eq (idx : Nat) (seen : List String) (p : J) :
    stepErrorsOpt idx seen p = some (stepErrors idx seen p) := by
  cases p <;> simp [stepErrorsOpt, stepErrors, specErrorsOpt_eq]

theorem projLoopOpt_eq (ps : List J) : ∀ (idx : Nat) (seen : List String),
    projLoopOpt idx seen ps = some (projLoop idx seen ps) := by
  induction ps with
  | nil => intro idx seen; rfl
  | cons p rest ih =>
    intro idx seen
    simp [projLoopOpt, projLoop, stepErrorsOpt_eq, ih]

theorem projectsErrorsOpt_eq (fs : List (String × J)) :
    projectsErrorsOpt fs = some (projectsErrors fs) := by
  unfold projectsErrorsOpt projectsErrors
  split
  · rfl
  · exact projLoopOpt_eq _ _ _
  · rfl

theorem contextsErrorsOpt_eq (fs : List (String × J)) :
    contextsErrorsOpt fs = some (contextsErrors fs) := by
  unfold contextsErrorsOpt contextsErrors
  split
  · rfl
  · rename_i cfs hcfs
    cases h1 : J.lookup cfs "disclaimer" <;> cases h2 : J.lookup cfs "direct_work" <;>
      cases h3 : J.lookup cfs "operational_exposure" <;> simp [hasKey, h1, h2, h3]
  · rfl

theorem proofErrorsOpt_eq (fs : List (String × J)) :
    proofErrorsOpt fs = some (proofErrors fs) := by
  unfold proofErrorsOpt proofErrors
  split
  · rename_i pofs hpofs
    cases h : J.lookup pofs "categories" with
    | none => simp [pyGet, h, J.isArr]
    | some v => cases v <;> simp [pyGet, h, J.isArr]
  · rfl

/-! Claim theorems. -/

/-- C1: for every input value that is not an object, validate returns the
single-element error sequence with the root message and nothing else,
short-circuiting all further checks. -/
theorem c1_nonobject_root (j : J) (h : j.isObj = false) :
    validate j = ["Root JSON value must be an object"] := by
  cases j with
  | obj fs => exact absurd h (by simp [J.isObj])
  | null => rfl
  | bool b => rfl
  | num n => rfl
  | str s => rfl
  | arr xs => rfl

/-- Witness for C1 at the concrete non-object root given by an empty array. -/
theorem c1_nonobject_root_witness :
    (J.arr []).isObj = false ∧ validate (J.arr []) = ["Root JSON value must be an object"] :=
  ⟨rfl, c1_nonobject_root (J.arr []) rfl⟩

/-- C2 counterexample: a document whose projects field is present but not an
array contains no project with id bmi, yet validate does not report that the
bmi project is required (the check of line 167 runs only when projects is a
list), refuting the claim that the message appears regardless of whether
projects is absent or not an array. -/
theorem c2_counterexample :
    "projects must include id=bmi" ∉ validate (J.obj [("projects", J.str "nope")]) := by
  decide

/-- C2 (amended): when the projects field is an array none of whose entries is
a dict with id equal to bmi, validate reports that the bmi project is
required; when projects is absent or not an array the check is skipped. -/
theorem c2_bmi_required_amended (fs : List (String × J)) (ps : List J)
    (hp : pyGet fs "projects" = J.arr ps) (hb : ∀ p ∈ ps, isBmiProj p = false) :
    "projects must include id=bmi" ∈ validate (J.obj fs) := by
  have hfind : ps.find? isBmiProj = none :=
    List.find?_eq_none.mpr (fun p hp2 => by simp [hb p hp2])
  have hmem : "projects must include id=bmi" ∈ bmiErrors fs := by
    unfold bmiErrors
    simp only [hp, hfind]
    simp
  exact (mem_validate_iff fs _).mpr
    (Or.inr (Or.inr (Or.inr (Or.inr (Or.inr (Or.inr (Or.inr hmem)))))))

/-- Witness for the amended C2 at a document with an empty projects array. -/
theorem c2_bmi_required_amended_witness :
    "projects must include id=bmi" ∈ validate (J.obj [("projects", J.arr [])]) :=
  c2_bmi_required_amended _ [] rfl (fun _ hp => nomatch hp)

/-- C5: validate is total on every JSON-like value: the mirror validateOpt, in
which each Python dict subscript is fallible and any failure aborts the run,
always succeeds and returns exactly the messages of the pure validate; each
shape problem inside the document thus yields its message and checking
continues rather than raising. -/
theorem c5_validate_total (j : J) : validateOpt j = some (validate j) := by
  cases j <;>
    simp [validateOpt, validate, i18nErrorsOpt_eq, projectsErrorsOpt_eq, contextsErrorsOpt_eq,
      proofErrorsOpt_eq]

/-- C6 counterexample: the source helper returns false on a plain string,
refuting the claim that it returns true for every value that is a string. -/
theorem c6_counterexample :
    (J.str "hello").isStr = true ∧ isLocalized (J.str "hello") = false := by
  decide

/-- C6 (amended): the source helper is true exactly for objects containing at
least one of the language keys en and it (key presence only), and is false on
every string; the spec predicate is_localized_text (string, or object with a
recognized language key) coincides with the disjunction actually used at
every call site, namely the helper or-ed with an isinstance string test. -/
theorem c6_is_localized_amended (v : J) :
    (isLocalized v || v.isStr) = isLocalizedTextSpec v
      ∧ (isLocalized v = true
          ↔ ∃ fs, v = J.obj fs ∧ (hasKey fs "en" = true ∨ hasKey fs "it" = true)) := by
  cases v <;> simp [isLocalized, isLocalizedTextSpec, J.isStr]

/-- C7 counterexample: on file content made of a UTF-8 BOM followed by the
well-formed JSON text of an empty array, main reports a parse failure (the
json.loads front gate rejects a leading U+FEFF) instead of parsing and
proceeding to validation, whatever the rest of the parser would do. -/
theorem c7_counterexample :
    mainOutcome (fun _ => some (J.arr [])) (some ("\uFEFF" ++ "[]"))
      = MainOutcome.parseError := by
  rfl

/-- C7 (amended): the read-and-parse step is not tolerant of a byte-order
marker: for every file content starting with U+FEFF, main reports a parse
failure (exit code 1) and never reaches validation, because the file is read
with the plain utf-8 codec (which keeps the BOM) and json.loads rejects a
leading BOM. -/
theorem c7_bom_amended (decode : String → Option J) (s : String) (h : hasBom s = true) :
    mainOutcome decode (some s) = MainOutcome.parseError := by
  simp [mainOutcome, pyLoads, h]

/-- Witness for the amended C7 at concrete BOM-prefixed content. -/
theorem c7_bom_amended_witness :
    hasBom ("\uFEFF" ++ "[]") = true
      ∧ mainOutcome (fun _ => some (J.arr [])) (some ("\uFEFF" ++ "[]"))
        = MainOutcome.parseError :=
  ⟨rfl, c7_bom_amended _ _ rfl⟩

theorem phdArrayMsg_inj {a b : String} (h : phdArrayMsg a = phdArrayMsg b) : a = b := by
  have hd := congrArg String.data h
  rw [show (phdArrayMsg a).data
      = ("phd_extract." ++ a).data ++ " must be an array of strings".data
      from String.data_append _ _,
    show (phdArrayMsg b).data
      = ("phd_extract." ++ b).data ++ " must be an array of strings".data
      from String.data_append _ _] at hd
  have h2 := List.append_cancel_right hd
  rw [String.data_append, String.data_append] at h2
  exact string_ext _ _ (List.append_cancel_left h2)

theorem phdArrayMsg_lastChar (key : String) : (phdArrayMsg key).data.getLast? = some 's' := by
  show ((("phd_extract." ++ key) ++ " must be an array of strings")).data.getLast? = some 's'
  rw [String.data_append, getLast?_append_right _ _ (by decide)]
  decide

/-- C3: duplicate-id messages are produced exactly for the second and later
occurrences of each non-blank string id: the number of duplicate messages for
an id s in the whole validate output is the number of its occurrences minus
one, and in a two-entry array sharing one id the single message arises while
processing the second entry, never the first. -/
theorem c3_duplicate_ids (fs : List (String × J)) (ps : List J) (s : String)
    (hp : pyGet fs "projects" = J.arr ps) (hs : isBlank s = false) :
    (validate (J.obj fs)).count (dupIdMsg s) = ps.countP (hasId s) - 1
      ∧ (∀ p₁ p₂, ps = [p₁, p₂] → hasId s p₁ = true → hasId s p₂ = true →
          dupIdMsg s ∉ stepErrors 0 [] p₁
            ∧ dupIdMsg s ∈ stepErrors 1 (seenUpd [] p₁) p₂) := by
  constructor
  · rw [validate_count_dup]
    unfold projectsErrors
    simp only [hp]
    rw [projLoop_count_dup s hs ps 0 []]
    simp
  · intro p₁ p₂ hps h1 h2
    subst hps
    constructor
    · intro hmem
      have hc := stepErrors_count_dup s hs 0 [] p₁
      rw [if_neg (by intro hx; exact absurd hx.2 (by simp))] at hc
      exact (List.count_eq_zero.mp hc) hmem
    · have hc := stepErrors_count_dup s hs 1 (seenUpd [] p₁) p₂
      have hseen : s ∈ seenUpd [] p₁ := (seenUpd_mem_iff s hs [] p₁).mpr (Or.inr h1)
      rw [if_pos ⟨h2, hseen⟩] at hc
      by_contra hmem
      rw [List.count_eq_zero.mpr hmem] at hc
      exact absurd hc (by decide)

/-- Witness for C3 at a two-entry projects array sharing the id p1. -/
theorem c3_duplicate_ids_witness :
    (validate (J.obj [("projects",
        J.arr [J.obj [("id", J.str "p1")], J.obj [("id", J.str "p1")]])])).count
      (dupIdMsg "p1") = 1
      ∧ dupIdMsg "p1" ∈ stepErrors 1 (seenUpd [] (J.obj [("id", J.str "p1")]))
          (J.obj [("id", J.str "p1")]) := by
  have h := c3_duplicate_ids [("projects",
      J.arr [J.obj [("id", J.str "p1")], J.obj [("id", J.str "p1")]])]
    [J.obj [("id", J.str "p1")], J.obj [("id", J.str "p1")]] "p1" rfl (by decide)
  exact ⟨h.1.trans (by decide), (h.2 _ _ rfl (by decide) (by decide)).2⟩

/-- C8: when the proof field is absent (or stored null), not an object, or an
object whose categories field is not an array, the proof section emits
nothing, and no message of the whole validate output has the shape of a proof
message (neither the fixed missing-DoMoMEA-item error nor a DoMoMEA item
message): every proof check is silently skipped. -/
theorem c8_proof_section_skipped (fs : List (String × J))
    (h : ∀ pofs, pyGet fs "proof" = J.obj pofs → (pyGet pofs "categories").isArr = false) :
    proofErrors fs = [] ∧ ∀ m ∈ validate (J.obj fs), ¬ proofMsgShape m := by
  have hpe : proofErrors fs = [] := by
    unfold proofErrors
    split
    · rename_i pofs hpofs
      split
      · rename_i cats hcats
        have h2 := h pofs hpofs
        rw [hcats] at h2
        simp [J.isArr] at h2
      · rfl
    · rfl
  refine ⟨hpe, ?_⟩
  intro m hm
  rcases (mem_validate_iff fs m).mp hm with h1 | h1 | h1 | h1 | h1 | h1 | h1 | h1
  · exact proofShape_not_in_others fs m (Or.inl h1)
  · exact proofShape_not_in_others fs m (Or.inr (Or.inl h1))
  · exact proofShape_not_in_others fs m (Or.inr (Or.inr (Or.inl h1)))
  · exact proofShape_not_in_others fs m (Or.inr (Or.inr (Or.inr (Or.inl h1))))
  · exact proofShape_not_in_others fs m (Or.inr (Or.inr (Or.inr (Or.inr (Or.inl h1)))))
  · exact proofShape_not_in_others fs m
      (Or.inr (Or.inr (Or.inr (Or.inr (Or.inr (Or.inl h1))))))
  · rw [hpe] at h1
    simp at h1
  · exact proofShape_not_in_others fs m
      (Or.inr (Or.inr (Or.inr (Or.inr (Or.inr (Or.inr h1))))))

/-- Witness for C8 at a document whose proof field is a string. -/
theorem c8_proof_section_skipped_witness :
    proofErrors [("proof", J.str "x")] = [] :=
  (c8_proof_section_skipped [("proof", J.str "x")] (fun _ h => J.noConfusion h)).1

/-- C9: a project entry whose id is a string of only whitespace characters is
reported with the non-empty-string id violation exactly like an empty one,
the id never enters the duplicate-detection set built by the loop, and no
duplicate message for it ever appears in the validate output. -/
theorem c9_blank_id (fs : List (String × J)) (ps : List J) (i : Nat)
    (pfs : List (String × J)) (s : String)
    (hp : pyGet fs "projects" = J.arr ps) (hi : ps.get? i = some (J.obj pfs))
    (hid : pyGet pfs "id" = J.str s) (hb : isBlank s = true) :
    nonEmptyIdMsg i ∈ validate (J.obj fs)
      ∧ s ∉ ps.foldl seenUpd []
      ∧ dupIdMsg s ∉ validate (J.obj fs) := by
  refine ⟨?_, ?_, ?_⟩
  · have hmem : nonEmptyIdMsg i ∈ projectsErrors fs := by
      unfold projectsErrors
      simp only [hp]
      have h0 := projLoop_mem_nonEmpty ps i 0 [] pfs s hi hid hb
      simpa using h0
    exact (mem_validate_iff fs _).mpr (Or.inr (Or.inr (Or.inl hmem)))
  · intro hmem
    rcases mem_foldl_seenUpd ps [] s hmem with h2 | h2
    · exact absurd h2 (by simp)
    · rw [hb] at h2
      exact Bool.noConfusion h2
  · obtain ⟨e1, e2, e3, e4, e5, e6, e7⟩ := dupIdMsg_not_in_others fs s
    intro hmem
    rcases (mem_validate_iff fs _).mp hmem with h1 | h1 | h1 | h1 | h1 | h1 | h1 | h1
    · exact e1 h1
    · exact e2 h1
    · unfold projectsErrors at h1
      simp only [hp] at h1
      exact projLoop_not_mem_dup_blank s hb ps 0 [] h1
    · exact e3 h1
    · exact e4 h1
    · exact e5 h1
    · exact e6 h1
    · exact e7 h1

/-- Witness for C9 at a projects array with a single whitespace-only id. -/
theorem c9_blank_id_witness :
    nonEmptyIdMsg 0 ∈ validate (J.obj [("projects", J.arr [J.obj [("id", J.str " ")]])])
      ∧ " " ∉ [J.obj [("id", J.str " ")]].foldl seenUpd [] := by
  have h := c9_blank_id [("projects", J.arr [J.obj [("id", J.str " ")]])]
    [J.obj [("id", J.str " ")]] 0 [("id", J.str " ")] " " rfl rfl rfl (by decide)
  exact ⟨h.1, h.2.1⟩

/-- C10: a phd_extract required array key stored with value null is reported
with the missing-required-key message, exactly like an absent key, and the
must-be-an-array-of-strings message for that key does not appear anywhere in
the validate output. -/
theorem c10_phd_null_key (fs pfs : List (String × J)) (key : String)
    (hp : pyGet fs "phd_extract" = J.obj pfs) (hk : key ∈ phdRequiredArrays)
    (hv : J.lookup pfs key = some J.null) :
    phdMissingMsg key ∈ validate (J.obj fs) ∧ phdArrayMsg key ∉ validate (J.obj fs) := by
  have hget : pyGet pfs key = J.null := by
    unfold pyGet
    rw [hv]
  have hkey : phdKeyErrors pfs key = [phdMissingMsg key] := by
    unfold phdKeyErrors
    simp only [hget]
  constructor
  · have hmem : phdMissingMsg key ∈ phdErrors fs := by
      unfold phdErrors
      simp only [hp]
      refine List.mem_append.mpr (Or.inr ?_)
      simp only [List.mem_flatten, List.mem_map]
      exact ⟨phdKeyErrors pfs key, ⟨key, hk, rfl⟩, by rw [hkey]; simp⟩
    exact (mem_validate_iff fs _).mpr
      (Or.inr (Or.inr (Or.inr (Or.inr (Or.inr (Or.inl hmem))))))
  · obtain ⟨e1, e2, e3, e4, e5, e6, e7⟩ := phdArrayMsg_not_in_others fs key
    intro hmem
    rcases (mem_validate_iff fs _).mp hmem with h1 | h1 | h1 | h1 | h1 | h1 | h1 | h1
    · exact e1 h1
    · exact e2 h1
    · exact e3 h1
    · exact e4 h1
    · exact e5 h1
    · unfold phdErrors at h1
      simp only [hp] at h1
      rcases List.mem_append.mp h1 with h2 | h2
      · split at h2
        · simp at h2
        · rw [List.mem_singleton] at h2
          have hl := phdArrayMsg_lastChar key
          rw [h2] at hl
          exact absurd hl (by decide)
      · simp only [List.mem_flatten, List.mem_map] at h2
        obtain ⟨l, ⟨key2, hk2, rfl⟩, hml⟩ := h2
        rcases phdKeyErrors_mem _ _ _ hml with h3 | h3
        · have hd := congrArg String.data h3
          simp [phdArrayMsg, phdMissingMsg, String.data_append] at hd
        · have hkk : key = key2 := phdArrayMsg_inj h3
          subst hkk
          rw [hkey, List.mem_singleton] at hml
          have hd := congrArg String.data hml
          simp [phdArrayMsg, phdMissingMsg, String.data_append] at hd
    · exact e6 h1
    · exact e7 h1

/-- Witness for C10 at a phd_extract object storing null under a required
key. -/
theorem c10_phd_null_key_witness :
    phdMissingMsg "research_objective"
        ∈ validate (J.obj [("phd_extract", J.obj [("research_objective", J.null)])])
      ∧ phdArrayMsg "research_objective"
        ∉ validate (J.obj [("phd_extract", J.obj [("research_objective", J.null)])]) :=
  c10_phd_null_key _ _ _ rfl (by decide) rfl

/-- C4: the bullet-count bounds are inclusive on both ends: for the bmi
project found by the validator, when evidence_bullets is an array of strings,
the 4–8 bound violation appears in the validate output exactly when the
length is outside 4..8 (so lengths 3 and 9 are reported and lengths 4 through
8 are not); likewise the DoMoMEA proof item at position i among the matched
items, when its bullets is an array of strings, is reported with its 6–10
bound message exactly when the length is outside 6..10. -/
theorem c4_bounds_inclusive :
    (∀ (fs : List (String × J)) (ps : List J) (bfs : List (String × J)) (es : List J),
      pyGet fs "projects" = J.arr ps → ps.find? isBmiProj = some (J.obj bfs) →
      pyGet bfs "evidence_bullets" = J.arr es → es.all J.isStr = true →
      ("projects[id=bmi].evidence_bullets must have 4–8 items" ∈ validate (J.obj fs)
        ↔ ¬(4 ≤ es.length ∧ es.length ≤ 8)))
    ∧ (∀ (fs pofs : List (String × J)) (cats : List J) (i : Nat)
        (ifs : List (String × J)) (bs : List J),
      pyGet fs "proof" = J.obj pofs → pyGet pofs "categories" = J.arr cats →
      (collectDomomea cats).get? i = some ifs → pyGet ifs "bullets" = J.arr bs →
      bs.all J.isStr = true →
      (domomeaBulletsRangeMsg (i + 1) ∈ validate (J.obj fs)
        ↔ ¬(6 ≤ bs.length ∧ bs.length ≤ 10))) := by
  constructor
  · intro fs ps bfs es hp hf he hall
    have hb : bmiErrors fs
        = if 4 ≤ es.length ∧ es.length ≤ 8 then []
          else ["projects[id=bmi].evidence_bullets must have 4–8 items"] := by
      unfold bmiErrors evidenceErrors
      simp only [hp, hf, he, hall, if_true]
    obtain ⟨e1, e2, e3, e4, e5, e6, e7⟩ := bmiRangeMsg_not_in_others fs
    constructor
    · intro hmem
      rcases (mem_validate_iff fs _).mp hmem with h1 | h1 | h1 | h1 | h1 | h1 | h1 | h1
      · exact absurd h1 e1
      · exact absurd h1 e2
      · exact absurd h1 e3
      · exact absurd h1 e4
      · exact absurd h1 e5
      · exact absurd h1 e6
      · exact absurd h1 e7
      · rw [hb] at h1
        intro hbd
        rw [if_pos hbd] at h1
        simp at h1
    · intro hbd
      refine (mem_validate_iff fs _).mpr
        (Or.inr (Or.inr (Or.inr (Or.inr (Or.inr (Or.inr (Or.inr ?_)))))))
      rw [hb, if_neg hbd]
      simp
  · intro fs pofs cats i ifs bs hpo hcc hi hbul hall
    have hne : (collectDomomea cats).isEmpty = false := by
      cases hcd : collectDomomea cats with
      | nil => rw [hcd] at hi; exact Option.noConfusion hi
      | cons a l => rfl
    have hpr : proofErrors fs = domomeaLoop 1 (collectDomomea cats) := by
      unfold proofErrors
      simp only [hpo, hcc, hne]
      simp
    obtain ⟨e1, e2, e3, e4, e5, e6, e7⟩ := domomeaRangeMsg_not_in_others fs (i + 1)
    constructor
    · intro hmem
      rcases (mem_validate_iff fs _).mp hmem with h1 | h1 | h1 | h1 | h1 | h1 | h1 | h1
      · exact absurd h1 e1
      · exact absurd h1 e2
      · exact absurd h1 e3
      · exact absurd h1 e4
      · exact absurd h1 e5
      · exact absurd h1 e6
      · rw [hpr] at h1
        exact domomeaLoop_range_of_mem _ i ifs bs hi hbul hall h1
      · exact absurd h1 e7
    · intro hbd
      refine (mem_validate_iff fs _).mpr
        (Or.inr (Or.inr (Or.inr (Or.inr (Or.inr (Or.inr (Or.inl ?_)))))))
      rw [hpr]
      exact domomeaLoop_range_of_bounds _ i ifs bs hi hbul hall hbd

/-- Witness for C4: a bmi project with three evidence bullets is reported, and
a single DoMoMEA item with three bullets is reported. -/
theorem c4_bounds_inclusive_witness :
    "projects[id=bmi].evidence_bullets must have 4–8 items"
        ∈ validate (J.obj [("projects", J.arr [J.obj [("id", J.str "bmi"),
            ("evidence_bullets", J.arr [J.str "a", J.str "b", J.str "c"])]])])
      ∧ domomeaBulletsRangeMsg 1
        ∈ validate (J.obj [("proof", J.obj [("categories", J.arr [J.obj [("items",
            J.arr [J.obj [("label", J.str "DoMoMEA"),
              ("bullets", J.arr [J.str "a", J.str "b", J.str "c"])]])]])])]) := by
  constructor
  · exact (c4_bounds_inclusive.1
      [("projects", J.arr [J.obj [("id", J.str "bmi"),
        ("evidence_bullets", J.arr [J.str "a", J.str "b", J.str "c"])]])]
      [J.obj [("id", J.str "bmi"),
        ("evidence_bullets", J.arr [J.str "a", J.str "b", J.str "c"])]]
      [("id", J.str "bmi"), ("evidence_bullets", J.arr [J.str "a", J.str "b", J.str "c"])]
      [J.str "a", J.str "b", J.str "c"]
      rfl rfl rfl (by decide)).mpr (by decide)
  · exact (c4_bounds_inclusive.2
      [("proof", J.obj [("categories", J.arr [J.obj [("items",
        J.arr [J.obj [("label", J.str "DoMoMEA"),
          ("bullets", J.arr [J.str "a", J.str "b", J.str "c"])]])]])])]
      [("categories", J.arr [J.obj [("items",
        J.arr [J.obj [("label", J.str "DoMoMEA"),
          ("bullets", J.arr [J.str "a", J.str "b", J.str "c"])]])]])]
      [J.obj [("items", J.arr [J.obj [("label", J.str "DoMoMEA"),
        ("bullets", J.arr [J.str "a", J.str "b", J.str "c"])]])]]
      0
      [("label", J.str "DoMoMEA"), ("bullets", J.arr [J.str "a", J.str "b", J.str "c"])]
      [J.str "a", J.str "b", J.str "c"]
      rfl rfl rfl rfl (by decide)).mpr (by decide)
